import Mathlib

/-!
Shallow embedding of the branch-redirect-service core (URL builder, bot and
platform classifiers, preview renderer, IP hashing, redirect resolver) in
Lean 4, together with proofs of the specification claims.

JavaScript values of type `string | undefined` are modelled as `Option String`.
The WHATWG `URL` / `URLSearchParams` machinery used by the source is modelled
explicitly: application/x-www-form-urlencoded serialization (space becomes
`+`, bytes outside the safe set are percent-encoded per UTF-8), parsing of
absolute URLs into scheme/host/path/query, and the `searchParams` operations
`has`/`set`.  A `new URL(...)` call that would throw is modelled as `none`.
-/

namespace BranchRedirect

/-! ### JavaScript string helpers -/

/-- Truthiness of a JS `string | undefined` value: `undefined` and `""` are falsy. -/
def jsTruthy : Option String → Bool
  | none => false
  | some s => s ≠ ""

/-- JS `a || b` on `string | undefined` values. -/
def jsOrStr (a b : Option String) : Option String :=
  if jsTruthy a then a else b

/-- JS `a || "d"` where the fallback is a plain string. -/
def jsOrDefault (a : Option String) (d : String) : String :=
  match a with
  | some s => if s = "" then d else s
  | none => d

/-- ASCII lower-casing of one character (hostnames and schemes are ASCII). -/
def toLowerChar (c : Char) : Char :=
  if 'A' ≤ c ∧ c ≤ 'Z' then Char.ofNat (c.toNat + 32) else c

/-- ASCII lower-casing of a string, modelling JS `toLowerCase` on ASCII input. -/
def toLowerStr (s : String) : String :=
  String.mk (s.toList.map toLowerChar)

/-- Case-sensitive list prefix test. -/
def isPrefixList : List Char → List Char → Bool
  | [], _ => true
  | _ :: _, [] => false
  | p :: ps, h :: hs => p = h && isPrefixList ps hs

/-- Substring containment on character lists (JS `String.prototype.includes`,
or a regex test for a literal pattern). -/
def containsSub (hay needle : List Char) : Bool :=
  isPrefixList needle hay ||
    match hay with
    | [] => false
    | _ :: t => containsSub t needle

/-- String-level substring containment. -/
def containsStr (hay needle : String) : Bool :=
  containsSub hay.toList needle.toList

/-! ### UTF-8 and application/x-www-form-urlencoded coding -/

/-- UTF-8 encoding of one code point as a byte list. -/
def utf8Bytes (n : Nat) : List Nat :=
  if n < 0x80 then [n]
  else if n < 0x800 then [0xC0 + n / 64, 0x80 + n % 64]
  else if n < 0x10000 then [0xE0 + n / 4096, 0x80 + n / 64 % 64, 0x80 + n % 64]
  else [0xF0 + n / 262144, 0x80 + n / 4096 % 64, 0x80 + n / 64 % 64, 0x80 + n % 64]

/-- UTF-8 bytes of a whole string. -/
def utf8Str (s : String) : List Nat :=
  (s.toList.map (fun c => utf8Bytes c.toNat)).join

/-- One step of lenient UTF-8 decoding: the code point led by byte `b` with
following bytes `rest`, and the remaining bytes (an invalid or truncated
prefix yields U+FFFD, as the WHATWG decoder substitutes replacement
characters; on output of `utf8Bytes` the decoding is exact). -/
def utf8DecodeOne (b : Nat) (rest : List Nat) : Nat × List Nat :=
  if b < 0x80 then (b, rest)
  else if b < 0xC0 then (0xFFFD, rest)
  else if b < 0xE0 then
    if rest.length < 1 then (0xFFFD, [])
    else ((b - 0xC0) * 64 + (rest.headD 0 - 0x80), rest.drop 1)
  else if b < 0xF0 then
    if rest.length < 2 then (0xFFFD, [])
    else ((b - 0xE0) * 4096 + (rest.headD 0 - 0x80) * 64 +
      ((rest.drop 1).headD 0 - 0x80), rest.drop 2)
  else
    if rest.length < 3 then (0xFFFD, [])
    else ((b - 0xF0) * 262144 + (rest.headD 0 - 0x80) * 4096 +
      ((rest.drop 1).headD 0 - 0x80) * 64 + ((rest.drop 2).headD 0 - 0x80),
      rest.drop 3)

/-- Fuel-driven iteration of the UTF-8 decoding step (structural, so it
reduces in the kernel); every step consumes at least one byte. -/
def utf8DecodeGo : Nat → List Nat → List Nat
  | 0, _ => []
  | _ + 1, [] => []
  | fuel + 1, b :: rest =>
    (utf8DecodeOne b rest).1 :: utf8DecodeGo fuel (utf8DecodeOne b rest).2

/-- Lenient UTF-8 decoding of a byte list to code points. -/
def utf8DecodeCps (bs : List Nat) : List Nat :=
  utf8DecodeGo bs.length bs

/-- Characters never percent-encoded by the form-urlencoded serializer:
ASCII alphanumerics and `* - . _`. -/
def isFormUnreserved (c : Char) : Bool :=
  ('A' ≤ c ∧ c ≤ 'Z') ∨ ('a' ≤ c ∧ c ≤ 'z') ∨ ('0' ≤ c ∧ c ≤ '9') ∨
    c = '*' ∨ c = '-' ∨ c = '.' ∨ c = '_'

/-- Upper-case hexadecimal digit for a value below 16. -/
def hexDigitChar (n : Nat) : Char :=
  if n < 10 then Char.ofNat (48 + n) else Char.ofNat (55 + n)

/-- Percent-encoding of one byte, `%XY` with upper-case hex. -/
def percentEncodeByte (b : Nat) : List Char :=
  ['%', hexDigitChar (b / 16), hexDigitChar (b % 16)]

/-- Form-urlencoded serialization of one character. -/
def formEncodeChar (c : Char) : List Char :=
  if isFormUnreserved c then [c]
  else if c = ' ' then ['+']
  else ((utf8Bytes c.toNat).map percentEncodeByte).join

/-- Form-urlencoded serialization of a string (spaces become `+`). -/
def formEncode (s : String) : List Char :=
  (s.toList.map formEncodeChar).join

/-- Hex-digit recognizer used by percent-decoding (both cases accepted). -/
def isHexChar (c : Char) : Bool :=
  ('0' ≤ c ∧ c ≤ '9') ∨ ('A' ≤ c ∧ c ≤ 'F') ∨ ('a' ≤ c ∧ c ≤ 'f')

/-- Value of a hex digit. -/
def hexVal (c : Char) : Nat :=
  if '0' ≤ c ∧ c ≤ '9' then c.toNat - 48
  else if 'A' ≤ c ∧ c ≤ 'F' then c.toNat - 55
  else c.toNat - 87

/-- Percent- and plus-decoding step with explicit fuel (structural, so it
reduces in the kernel); every step consumes at least one character, so fuel
equal to the input length is always sufficient. -/
def percentDecodeGo : Nat → List Char → List Nat
  | 0, _ => []
  | _ + 1, [] => []
  | fuel + 1, c :: rest =>
    if c = '%' then
      match rest with
      | a :: b :: rest2 =>
        if isHexChar a ∧ isHexChar b then
          (16 * hexVal a + hexVal b) :: percentDecodeGo fuel rest2
        else utf8Bytes 37 ++ percentDecodeGo fuel rest
      | _ => utf8Bytes 37 ++ percentDecodeGo fuel rest
    else if c = '+' then 32 :: percentDecodeGo fuel rest
    else utf8Bytes c.toNat ++ percentDecodeGo fuel rest

/-- Percent- and plus-decoding of a form-urlencoded character sequence to
bytes (a stray `%` not followed by two hex digits stands for itself). -/
def percentDecode (cs : List Char) : List Nat :=
  percentDecodeGo cs.length cs

/-- Full form-urlencoded decoding of a character sequence to a string. -/
def formDecodeChars (cs : List Char) : String :=
  String.mk ((utf8DecodeCps (percentDecode cs)).map Char.ofNat)

/-! ### Query strings (URLSearchParams) -/

/-- Splitting a character sequence at every `&` (the form-urlencoded pair
separator); the empty sequence yields one empty segment. -/
def splitOnAmp : List Char → List (List Char)
  | [] => [[]]
  | c :: rest =>
    if c = '&' then [] :: splitOnAmp rest
    else
      match splitOnAmp rest with
      | s :: ss => (c :: s) :: ss
      | [] => [[c]]

/-- Splitting a segment at the first `=` into raw key and raw value. -/
def splitAtEq : List Char → (List Char × Option (List Char))
  | [] => ([], none)
  | c :: rest =>
    if c = '=' then ([], some rest)
    else
      match splitAtEq rest with
      | (k, v) => (c :: k, v)

/-- Form-urlencoded parsing of a query character sequence into decoded
key/value pairs (empty segments are skipped; a segment without `=` is a key
with empty value). -/
def parseQueryChars (cs : List Char) : List (String × String) :=
  (splitOnAmp cs).filterMap fun seg =>
    if seg = [] then none
    else
      match splitAtEq seg with
      | (k, some v) => some (formDecodeChars k, formDecodeChars v)
      | (k, none) => some (formDecodeChars k, "")

/-- Form-urlencoded parsing of a query string. -/
def parseQuery (s : String) : List (String × String) :=
  parseQueryChars s.toList

/-- Serialization of one key/value pair. -/
def serializePair (kv : String × String) : List Char :=
  formEncode kv.1 ++ '=' :: formEncode kv.2

/-- Joining of serialized segments with `&`. -/
def joinAmp : List (List Char) → List Char
  | [] => []
  | [x] => x
  | x :: xs => x ++ '&' :: joinAmp xs

/-- URLSearchParams serialization (`toString`). -/
def serializeQuery (ps : List (String × String)) : String :=
  String.mk (joinAmp (ps.map serializePair))

/-- URLSearchParams `has`: is some pair with this key present? -/
def paramsHas (ps : List (String × String)) (k : String) : Bool :=
  ps.any fun kv => kv.1 = k

/-- Removal of every pair with the given key. -/
def paramsDelete : List (String × String) → String → List (String × String)
  | [], _ => []
  | kv :: rest, k =>
    if kv.1 = k then paramsDelete rest k else kv :: paramsDelete rest k

/-- URLSearchParams `set`: replace the value of the first pair with this key
and drop later duplicates, or append the pair at the end if absent. -/
def paramsSet : List (String × String) → String → String → List (String × String)
  | [], k, v => [(k, v)]
  | kv :: rest, k, v =>
    if kv.1 = k then (k, v) :: paramsDelete rest k
    else kv :: paramsSet rest k v

/-! ### The URL model (`new URL`, `url.toString()`) -/

/-- Parsed absolute URL: scheme, host, path and decoded search parameters. -/
structure URLModel where
  scheme : String
  host : String
  path : String
  params : List (String × String)
deriving DecidableEq

/-- Scheme validity: one ASCII letter followed by letters, digits, `+ - .`. -/
def validScheme : List Char → Bool
  | [] => false
  | c :: rest =>
    (('A' ≤ c ∧ c ≤ 'Z') ∨ ('a' ≤ c ∧ c ≤ 'z')) &&
      rest.all fun d =>
        ('A' ≤ d ∧ d ≤ 'Z') ∨ ('a' ≤ d ∧ d ≤ 'z') ∨ ('0' ≤ d ∧ d ≤ '9') ∨
          d = '+' ∨ d = '-' ∨ d = '.'

/-- Characters up to (excluding) the first occurrence of the delimiter test. -/
def takeUntil (p : Char → Bool) : List Char → List Char
  | [] => []
  | c :: rest => if p c then [] else c :: takeUntil p rest

/-- Characters from (excluding) the first occurrence of the delimiter test,
or `none` when the delimiter does not occur. -/
def afterFirst (p : Char → Bool) : List Char → Option (List Char)
  | [] => none
  | c :: rest => if p c then some rest else afterFirst p rest

/-- Hostname of an authority component: drop userinfo (after the last `@`)
and the port (after the following `:`). -/
def hostOfAuthority (auth : List Char) : List Char :=
  let afterAt :=
    match afterFirst (fun c => c = '@') auth.reverse with
    | some _ => (takeUntil (fun c => c = '@') auth.reverse).reverse
    | none => auth
  takeUntil (fun c => c = ':') afterAt

/-- Parsing of an absolute URL string, modelling `new URL(s)`: `none` when
the constructor would throw.  Scheme and host are lower-cased, an empty path
becomes `/`, the query is parsed as form-urlencoded pairs, and a fragment is
dropped. -/
def parseURL (s : String) : Option URLModel :=
  let cs := s.toList
  let schemeCs := takeUntil (fun c => c = ':') cs
  match afterFirst (fun c => c = ':') cs with
  | none => none
  | some rest =>
    if validScheme schemeCs ∧ rest.take 2 = ['/', '/'] then
      let afterSlashes := rest.drop 2
      let isAuthEnd := fun c => c = '/' ∨ c = '?' ∨ c = '#'
      let authority := takeUntil isAuthEnd afterSlashes
      let hostCs := hostOfAuthority authority
      if hostCs = [] then none
      else
        let tail := afterSlashes.drop authority.length
        let beforeFrag := takeUntil (fun c => c = '#') tail
        let pathCs := takeUntil (fun c => c = '?') beforeFrag
        let queryCs :=
          match afterFirst (fun c => c = '?') beforeFrag with
          | some q => q
          | none => []
        some
          { scheme := toLowerStr (String.mk schemeCs)
            host := toLowerStr (String.mk hostCs)
            path := if pathCs = [] then "/" else String.mk pathCs
            params := parseQueryChars queryCs }
    else none

/-- Serialization of the URL model (`url.toString()` after `searchParams`
have been touched: the query is re-serialized as form-urlencoded). -/
def urlToString (u : URLModel) : String :=
  u.scheme ++ "://" ++ u.host ++ u.path ++
    (if u.params = [] then "" else "?" ++ serializeQuery u.params)

/-! ### Data model (`src/config.ts`, `src/lib/platform.ts`) -/

/-- Per-slug configuration entry (zod schema of `links.json`). -/
structure LinkEntry where
  androidFlowUrl : String
  iosWhatsappBaseUrl : String
  desktopWhatsappBaseUrl : String
  defaultPhone : Option String
  defaultText : Option String
  ogTitle : Option String
  ogDescription : Option String
  ogImage : Option String

/-- Closed platform enumeration. -/
inductive Platform where
  | ios
  | android
  | desktop
deriving DecidableEq

/-- Query-parameter mapping as seen by the URL builder: JS object with
`string | undefined` values, keys unique, insertion-ordered. -/
abbrev RedirectParams := List (String × Option String)

/-- JS property access `params[k]` on the parameter object. -/
def getParam (params : RedirectParams) (k : String) : Option String :=
  match List.lookup k params with
  | some v => v
  | none => none

/-- Outcome record of the URL builder (`BuildUrlResult`). -/
structure BuildUrlResult where
  url : String
  isValid : Bool
  error : Option String
deriving DecidableEq

/-! ### URL builder (`src/lib/urlBuilder.ts`) -/

/-- Extraction of UTM and other passthrough parameters from query params,
excluding `phone` and `text` (handled separately) and every
undefined/empty value. -/
def extractPassthroughParams : RedirectParams → List (String × String)
  | [] => []
  | (k, v) :: rest =>
    if k = "phone" ∨ k = "text" then extractPassthroughParams rest
    else
      match v with
      | some s =>
        if s = "" then extractPassthroughParams rest
        else (k, s) :: extractPassthroughParams rest
      | none => extractPassthroughParams rest

/-- Loop shared by the builders: set each parameter whose key is not already
present on the URL (`if (!url.searchParams.has(key)) url.searchParams.set`). -/
def addMissingParams (u : URLModel) (ps : List (String × String)) : URLModel :=
  ps.foldl
    (fun acc kv =>
      if paramsHas acc.params kv.1 then acc
      else { acc with params := paramsSet acc.params kv.1 kv.2 })
    u

/-- Safe appending of query parameters to a URL string, never overriding
parameters already present on the base URL (`appendQueryParams`). -/
def appendQueryParams (baseUrl : String) (params : List (String × String)) :
    Option String :=
  match parseURL baseUrl with
  | none => none
  | some url => some (urlToString (addMissingParams url params))

/-- Test for a `/` immediately followed by a decimal digit somewhere in the
character list. -/
def hasSlashDigit : List Char → Bool
  | [] => false
  | '/' :: c :: rest => c.isDigit || hasSlashDigit (c :: rest)
  | _ :: rest => hasSlashDigit rest

/-- Test of the source regex `/\/\d+/` on a pathname: does it contain a `/`
followed by a digit? -/
def pathHasPhoneSegment (p : String) : Bool :=
  hasSlashDigit p.toList

/-- WhatsApp URL shaping (`buildWhatsAppUrl`): dispatch on the lower-cased
host of the base URL; `none` models the `new URL` constructor throwing. -/
def buildWhatsAppUrl (baseUrl phone text : String)
    (passthroughParams : List (String × String)) : Option String :=
  match parseURL baseUrl with
  | none => none
  | some url0 =>
    let host := toLowerStr url0.host
    let encodedText := text
    let url1 :=
      if host = "wa.me" then
        let urlA :=
          if ¬ pathHasPhoneSegment url0.path then { url0 with path := "/" ++ phone }
          else url0
        { urlA with params := paramsSet urlA.params "text" encodedText }
      else if host = "api.whatsapp.com" ∨ host = "web.whatsapp.com" then
        let urlA :=
          if ¬ containsStr url0.path "/send" then { url0 with path := "/send" }
          else url0
        { urlA with params := paramsSet (paramsSet urlA.params "phone" phone) "text" encodedText }
      else
        { url0 with params := paramsSet (paramsSet url0.params "phone" phone) "text" encodedText }
    some (urlToString (addMissingParams url1 passthroughParams))

/-- Android flow URL construction (`buildAndroidFlowUrl`). -/
def buildAndroidFlowUrl (baseUrl phone text : String)
    (passthroughParams : List (String × String)) : Option String :=
  match parseURL baseUrl with
  | none => none
  | some url0 =>
    let url1 := { url0 with params := paramsSet (paramsSet url0.params "phone" phone) "text" text }
    some (urlToString (addMissingParams url1 passthroughParams))

/-- Host allowlist check (`isHostAllowed`): parse the URL and test lower-cased
hostname membership; a parse failure is caught and yields `false`. -/
def isHostAllowed (url : String) (allowedHosts : List String) : Bool :=
  match parseURL url with
  | some parsed => allowedHosts.contains (toLowerStr parsed.host)
  | none => false

/-- Error message of the missing-phone failure. -/
def phoneRequiredMsg : String := "Phone number is required but not provided"

/-- Target URL construction step of `buildRedirectUrl` (the `switch` on the
platform); `none` models a thrown exception from `new URL`. -/
def buildTargetUrl (platform : Platform) (linkConfig : LinkEntry)
    (phone text : String) (passthroughParams : List (String × String)) :
    Option String :=
  match platform with
  | .ios => buildWhatsAppUrl linkConfig.iosWhatsappBaseUrl phone text passthroughParams
  | .android => buildAndroidFlowUrl linkConfig.androidFlowUrl phone text passthroughParams
  | .desktop => buildWhatsAppUrl linkConfig.desktopWhatsappBaseUrl phone text passthroughParams

/-- Phone resolution of `buildRedirectUrl`:
`params.phone || linkConfig.defaultPhone` (JS truthiness, so an empty
string falls through to the default). -/
def resolvedPhone (params : RedirectParams) (linkConfig : LinkEntry) : Option String :=
  jsOrStr (getParam params "phone") linkConfig.defaultPhone

/-- Text resolution of `buildRedirectUrl`:
`params.text || linkConfig.defaultText || ''`. -/
def resolvedText (params : RedirectParams) (linkConfig : LinkEntry) : String :=
  jsOrDefault (jsOrStr (getParam params "text") linkConfig.defaultText) ""

/-- Outcome record of the missing-phone failure. -/
def phoneRequiredResult : BuildUrlResult :=
  { url := "", isValid := false, error := some phoneRequiredMsg }

/-- Main URL-building entry point (`buildRedirectUrl`); the outer `Option`
models an uncaught exception (malformed base URL). -/
def buildRedirectUrl (platform : Platform) (linkConfig : LinkEntry)
    (params : RedirectParams) (allowedHosts : List String) :
    Option BuildUrlResult :=
  let phoneOpt := resolvedPhone params linkConfig
  if ¬ jsTruthy phoneOpt then some phoneRequiredResult
  else
    let phone := phoneOpt.getD ""
    let text := resolvedText params linkConfig
    let passthroughParams := extractPassthroughParams params
    match buildTargetUrl platform linkConfig phone text passthroughParams with
    | none => none
    | some targetUrl =>
      if ¬ isHostAllowed targetUrl allowedHosts then
        match parseURL targetUrl with
        | some u =>
          some { url := "", isValid := false
                 error := some ("Redirect to host not allowed: " ++ u.host) }
        | none => none
      else some { url := targetUrl, isValid := true, error := none }

/-! ### Case-insensitive literal regex matching -/

/-- Finder for a case-insensitive literal pattern: the first matching
substring of the haystack, in the haystack's own casing (JS
`userAgent.match(/lit/i)` yielding `match[0]`). -/
def findLitCI (pat : List Char) : List Char → Option (List Char)
  | [] => if isPrefixList (pat.map toLowerChar) [] then some [] else none
  | c :: t =>
    if isPrefixList (pat.map toLowerChar) ((c :: t).map toLowerChar) then
      some ((c :: t).take pat.length)
    else findLitCI pat t

/-- Case-insensitive containment of a literal pattern. -/
def ciContainsStr (hay pat : String) : Bool :=
  (findLitCI pat.toList hay.toList).isSome

/-- Word character for the regex `\b` boundary: `[A-Za-z0-9_]`. -/
def isWordChar (c : Char) : Bool :=
  ('a' ≤ c ∧ c ≤ 'z') ∨ ('A' ≤ c ∧ c ≤ 'Z') ∨ ('0' ≤ c ∧ c ≤ '9') ∨ c = '_'

/-- Does a word boundary fall before this suffix (pattern text ends in a
word character, so the next character must not be one)? -/
def wordEndsAt : List Char → Bool
  | [] => true
  | c :: _ => ¬ isWordChar c

/-- Finder for a case-insensitive literal pattern followed by `\b`. -/
def findLitWordEndCI (pat : List Char) : List Char → Option (List Char)
  | [] =>
    if isPrefixList (pat.map toLowerChar) [] ∧ wordEndsAt [] then some []
    else none
  | c :: t =>
    if isPrefixList (pat.map toLowerChar) ((c :: t).map toLowerChar) ∧
        wordEndsAt ((c :: t).drop pat.length) then
      some ((c :: t).take pat.length)
    else findLitWordEndCI pat t

/-! ### Bot classifier (`src/lib/isBot.ts`) -/

/-- One entry of the bot pattern catalog: a case-insensitive literal, or a
case-insensitive literal with a trailing `\b` word boundary. -/
inductive BotPattern where
  | lit (s : String)
  | litWordEnd (s : String)

/-- Regex `test` of one catalog pattern against a user-agent. -/
def patMatch : BotPattern → String → Option String
  | .lit s, ua => (findLitCI s.toList ua.toList).map String.mk
  | .litWordEnd s, ua => (findLitWordEndCI s.toList ua.toList).map String.mk

/-- Boolean `pattern.test(userAgent)`. -/
def patTest (p : BotPattern) (ua : String) : Bool :=
  (patMatch p ua).isSome

/-- Source text of a pattern (`pattern.source`). -/
def patSource : BotPattern → String
  | .lit s => s
  | .litWordEnd s => s ++ "\\b"

/-- Ordered catalog of known bot/crawler user-agent patterns
(`BOT_PATTERNS`). -/
def BOT_PATTERNS : List BotPattern :=
  [ .lit "LinkedInBot", .lit "Twitterbot", .lit "facebookexternalhit",
    .lit "Facebot", .lit "Slackbot", .lit "Discordbot", .lit "WhatsApp",
    .lit "TelegramBot", .lit "Viber", .lit "SkypeUriPreview", .lit "Pinterest",
    .lit "Redditbot", .lit "Embedly",
    .lit "Googlebot", .lit "bingbot", .lit "Baiduspider", .lit "YandexBot",
    .lit "DuckDuckBot", .lit "Sogou",
    .lit "Slurp", .lit "ia_archiver", .lit "AhrefsBot", .lit "SemrushBot",
    .lit "MJ12bot", .lit "DotBot", .lit "rogerbot", .lit "PetalBot",
    .lit "preview", .lit "crawler", .lit "spider", .litWordEnd "bot",
    .lit "Applebot", .lit "iMessageLinkPreviews" ]

/-- Bot check (`isBot`): falsy user-agent is not a bot, otherwise any catalog
pattern may match. -/
def isBot : Option String → Bool
  | none => false
  | some ua => if ua = "" then false else BOT_PATTERNS.any fun p => patTest p ua

/-- Loop body of `identifyBot`: first pattern whose test succeeds yields
`match ? match[0] : pattern.source`. -/
def identifyBotLoop (ua : String) : List BotPattern → Option String
  | [] => none
  | p :: rest =>
    if patTest p ua then
      some (match patMatch p ua with
            | some m => m
            | none => patSource p)
    else identifyBotLoop ua rest

/-- Identification of the matching bot (`identifyBot`). -/
def identifyBot : Option String → Option String
  | none => none
  | some ua => if ua = "" then none else identifyBotLoop ua BOT_PATTERNS

/-! ### Platform classifier (`src/lib/platform.ts`) -/

/-- Test of `IOS_REGEX = /(iPhone|iPad|iPod)/i`. -/
def iosRegexTest (ua : String) : Bool :=
  ciContainsStr ua "iPhone" || ciContainsStr ua "iPad" || ciContainsStr ua "iPod"

/-- Test of `ANDROID_REGEX = /Android/i`. -/
def androidRegexTest (ua : String) : Bool :=
  ciContainsStr ua "Android"

/-- Platform detection (`detectPlatform`): iOS first, then Android, else
desktop; falsy user-agent is desktop. -/
def detectPlatform : Option String → Platform
  | none => .desktop
  | some ua =>
    if ua = "" then .desktop
    else if iosRegexTest ua then .ios
    else if androidRegexTest ua then .android
    else .desktop

/-- Result record of the external `ua-parser-js` library, which is outside
this repository; the extraction itself is passed in as a function. -/
structure UAParseResult where
  browser : Option String
  browserVersion : Option String
  os : Option String
  osVersion : Option String
  device : Option String
  deviceType : Option String

/-- Extended platform info (`PlatformInfo`). -/
structure PlatformInfo where
  platform : Platform
  browser : Option String
  browserVersion : Option String
  os : Option String
  osVersion : Option String
  device : Option String
  deviceType : Option String

/-- Extended platform description (`getPlatformInfo`), parameterized by the
external `ua-parser-js` extraction: a falsy user-agent yields the detected
platform with every descriptive field `undefined`. -/
def getPlatformInfo (uaParse : String → UAParseResult) (userAgent : Option String) :
    PlatformInfo :=
  let platform := detectPlatform userAgent
  match userAgent with
  | none =>
    { platform := platform, browser := none, browserVersion := none, os := none
      osVersion := none, device := none, deviceType := none }
  | some ua =>
    if ua = "" then
      { platform := platform, browser := none, browserVersion := none, os := none
        osVersion := none, device := none, deviceType := none }
    else
      let r := uaParse ua
      { platform := platform, browser := r.browser, browserVersion := r.browserVersion
        os := r.os, osVersion := r.osVersion, device := r.device
        deviceType := r.deviceType }

/-! ### Redirect resolver fragments (`src/routes/redirect.ts`) -/

/-- Bot gating of the `/r/:slug` handler:
`isBot(userAgent) && queryParams._continue !== '1'`. -/
def isBotRequest (userAgent : Option String) (query : List (String × String)) : Bool :=
  isBot userAgent && !(List.lookup "_continue" query == some "1")

/-- Query string passed to the preview renderer on the bot path: the parsed
query entries minus the `_continue` key, re-serialized. -/
def strippedQueryString (query : List (String × String)) : String :=
  serializeQuery (query.filter fun kv => kv.1 ≠ "_continue")

/-! ### Preview renderer (`src/lib/preview.ts`) -/

/-- HTML escaping of one character (`escapeHtml` map). -/
def escapeHtmlChar (c : Char) : List Char :=
  if c = '&' then "&amp;".toList
  else if c = '<' then "&lt;".toList
  else if c = '>' then "&gt;".toList
  else if c = '"' then "&quot;".toList
  else if c = Char.ofNat 39 then "&#039;".toList
  else [c]

/-- HTML escaping of special characters to prevent XSS (`escapeHtml`). -/
def escapeHtml (text : String) : String :=
  String.mk ((text.toList.map escapeHtmlChar).join)

/-- Options record of the preview renderer (`PreviewOptions`). -/
structure PreviewOptions where
  slug : String
  linkConfig : LinkEntry
  queryString : String
  baseUrl : String

/-- Redirect path for the continue button: `/r/<slug>` plus the query string
when non-empty. -/
def redirectPathOf (slug queryString : String) : String :=
  "/r/" ++ slug ++ (if queryString ≠ "" then "?" ++ queryString else "")

/-- Continue-button URL: the redirect path with the reserved `_continue=1`
parameter appended. -/
def continueUrlOf (slug queryString : String) : String :=
  redirectPathOf slug queryString ++
    (if queryString ≠ "" then "&" else "?") ++ "_continue=1"

/-- Literal template segment 0 of the preview document. -/
def previewSeg0 : String :=
    "<!DOCTYPE html>" ++ "\n" ++
    "<html lang=\"en\">" ++ "\n" ++
    "<head>" ++ "\n" ++
    "  <meta charset=\"UTF-8\">" ++ "\n" ++
    "  <meta name=\"viewport\" content=\"width=device-width, initial-scale=1.0\">" ++ "\n" ++
    "  <title>"

/-- Literal template segment 1 of the preview document. -/
def previewSeg1 : String :=
    "</title>" ++ "\n" ++
    "" ++ "\n" ++
    "  <!-- OpenGraph Meta Tags -->" ++ "\n" ++
    "  <meta property=\"og:title\" content=\""

/-- Literal template segment 2 of the preview document. -/
def previewSeg2 : String :=
    "\">" ++ "\n" ++
    "  <meta property=\"og:description\" content=\""

/-- Literal template segment 3 of the preview document. -/
def previewSeg3 : String :=
    "\">" ++ "\n" ++
    "  <meta property=\"og:type\" content=\"website\">" ++ "\n" ++
    "  <meta property=\"og:url\" content=\""

/-- Literal template segment 4 of the preview document. -/
def previewSeg4 : String :=
    "\">" ++ "\n" ++
    "  "

/-- Literal template segment 5 of the preview document. -/
def previewSeg5 : String :=
    "" ++ "\n" ++
    "" ++ "\n" ++
    "  <!-- Twitter Card Meta Tags -->" ++ "\n" ++
    "  <meta name=\"twitter:card\" content=\"summary_large_image\">" ++ "\n" ++
    "  <meta name=\"twitter:title\" content=\""

/-- Literal template segment 6 of the preview document. -/
def previewSeg6 : String :=
    "\">" ++ "\n" ++
    "  <meta name=\"twitter:description\" content=\""

/-- Literal template segment 7 of the preview document. -/
def previewSeg7 : String :=
    "\">" ++ "\n" ++
    "  "

/-- Literal template segment 8 of the preview document. -/
def previewSeg8 : String :=
    "" ++ "\n" ++
    "" ++ "\n" ++
    "  <!-- Security Headers via meta -->" ++ "\n" ++
    "  <meta http-equiv=\"X-Content-Type-Options\" content=\"nosniff\">" ++ "\n" ++
    "" ++ "\n" ++
    "  <style>" ++ "\n" ++
    "    * \x7b" ++ "\n" ++
    "      box-sizing: border-box;" ++ "\n" ++
    "      margin: 0;" ++ "\n" ++
    "      padding: 0;" ++ "\n" ++
    "    \x7d" ++ "\n" ++
    "" ++ "\n" ++
    "    body \x7b" ++ "\n" ++
    "      font-family: -apple-system, BlinkMacSystemFont, \x27Segoe UI\x27, Roboto, Oxygen, Ubuntu, Cantarell, sans-serif;" ++ "\n" ++
    "      background: linear-gradient(135deg, #667eea 0%, #764ba2 100%);" ++ "\n" ++
    "      min-height: 100vh;" ++ "\n" ++
    "      display: flex;" ++ "\n" ++
    "      align-items: center;" ++ "\n" ++
    "      justify-content: center;" ++ "\n" ++
    "      padding: 20px;" ++ "\n" ++
    "    \x7d" ++ "\n" ++
    "" ++ "\n" ++
    "    .container \x7b" ++ "\n" ++
    "      background: white;" ++ "\n" ++
    "      border-radius: 16px;" ++ "\n" ++
    "      padding: 48px;" ++ "\n" ++
    "      max-width: 420px;" ++ "\n" ++
    "      width: 100%;" ++ "\n" ++
    "      text-align: center;" ++ "\n" ++
    "      box-shadow: 0 20px 60px rgba(0, 0, 0, 0.2);" ++ "\n" ++
    "    \x7d" ++ "\n" ++
    "" ++ "\n" ++
    "    .icon \x7b" ++ "\n" ++
    "      width: 80px;" ++ "\n" ++
    "      height: 80px;" ++ "\n" ++
    "      margin: 0 auto 24px;" ++ "\n" ++
    "      background: #25D366;" ++ "\n" ++
    "      border-radius: 20px;" ++ "\n" ++
    "      display: flex;" ++ "\n" ++
    "      align-items: center;" ++ "\n" ++
    "      justify-content: center;" ++ "\n" ++
    "    \x7d" ++ "\n" ++
    "" ++ "\n" ++
    "    .icon svg \x7b" ++ "\n" ++
    "      width: 48px;" ++ "\n" ++
    "      height: 48px;" ++ "\n" ++
    "      fill: white;" ++ "\n" ++
    "    \x7d" ++ "\n" ++
    "" ++ "\n" ++
    "    h1 \x7b" ++ "\n" ++
    "      font-size: 24px;" ++ "\n" ++
    "      font-weight: 600;" ++ "\n" ++
    "      color: #1a1a1a;" ++ "\n" ++
    "      margin-bottom: 12px;" ++ "\n" ++
    "    \x7d" ++ "\n" ++
    "" ++ "\n" ++
    "    p \x7b" ++ "\n" ++
    "      font-size: 16px;" ++ "\n" ++
    "      color: #666;" ++ "\n" ++
    "      margin-bottom: 32px;" ++ "\n" ++
    "      line-height: 1.5;" ++ "\n" ++
    "    \x7d" ++ "\n" ++
    "" ++ "\n" ++
    "    .continue-btn \x7b" ++ "\n" ++
    "      display: inline-block;" ++ "\n" ++
    "      background: #25D366;" ++ "\n" ++
    "      color: white;" ++ "\n" ++
    "      text-decoration: none;" ++ "\n" ++
    "      padding: 16px 48px;" ++ "\n" ++
    "      border-radius: 50px;" ++ "\n" ++
    "      font-size: 18px;" ++ "\n" ++
    "      font-weight: 600;" ++ "\n" ++
    "      transition: transform 0.2s, box-shadow 0.2s;" ++ "\n" ++
    "      cursor: pointer;" ++ "\n" ++
    "      border: none;" ++ "\n" ++
    "    \x7d" ++ "\n" ++
    "" ++ "\n" ++
    "    .continue-btn:hover \x7b" ++ "\n" ++
    "      transform: translateY(-2px);" ++ "\n" ++
    "      box-shadow: 0 8px 25px rgba(37, 211, 102, 0.4);" ++ "\n" ++
    "    \x7d" ++ "\n" ++
    "" ++ "\n" ++
    "    .continue-btn:active \x7b" ++ "\n" ++
    "      transform: translateY(0);" ++ "\n" ++
    "    \x7d" ++ "\n" ++
    "" ++ "\n" ++
    "    .footer \x7b" ++ "\n" ++
    "      margin-top: 24px;" ++ "\n" ++
    "      font-size: 12px;" ++ "\n" ++
    "      color: #999;" ++ "\n" ++
    "    \x7d" ++ "\n" ++
    "  </style>" ++ "\n" ++
    "</head>" ++ "\n" ++
    "<body>" ++ "\n" ++
    "  <div class=\"container\">" ++ "\n" ++
    "    <div class=\"icon\">" ++ "\n" ++
    "      <svg viewBox=\"0 0 24 24\" xmlns=\"http://www.w3.org/2000/svg\">" ++ "\n" ++
    "        <path d=\"M17.472 14.382c-.297-.149-1.758-.867-2.03-.967-.273-.099-.471-.148-.67.15-.197.297-.767.966-.94 1.164-.173.199-.347.223-.644.075-.297-.15-1.255-.463-2.39-1.475-.883-.788-1.48-1.761-1.653-2.059-.173-.297-.018-.458.13-.606.134-.133.298-.347.446-.52.149-.174.198-.298.298-.497.099-.198.05-.371-.025-.52-.075-.149-.669-1.612-.916-2.207-.242-.579-.487-.5-.669-.51-.173-.008-.371-.01-.57-.01-.198 0-.52.074-.792.372-.272.297-1.04 1.016-1.04 2.479 0 1.462 1.065 2.875 1.213 3.074.149.198 2.096 3.2 5.077 4.487.709.306 1.262.489 1.694.625.712.227 1.36.195 1.871.118.571-.085 1.758-.719 2.006-1.413.248-.694.248-1.289.173-1.413-.074-.124-.272-.198-.57-.347m-5.421 7.403h-.004a9.87 9.87 0 01-5.031-1.378l-.361-.214-3.741.982.998-3.648-.235-.374a9.86 9.86 0 01-1.51-5.26c.001-5.45 4.436-9.884 9.888-9.884 2.64 0 5.122 1.03 6.988 2.898a9.825 9.825 0 012.893 6.994c-.003 5.45-4.437 9.884-9.885 9.884m8.413-18.297A11.815 11.815 0 0012.05 0C5.495 0 .16 5.335.157 11.892c0 2.096.547 4.142 1.588 5.945L.057 24l6.305-1.654a11.882 11.882 0 005.683 1.448h.005c6.554 0 11.89-5.335 11.893-11.893a11.821 11.821 0 00-3.48-8.413z\"/>" ++ "\n" ++
    "      </svg>" ++ "\n" ++
    "    </div>" ++ "\n" ++
    "" ++ "\n" ++
    "    <h1>"

/-- Literal template segment 9 of the preview document. -/
def previewSeg9 : String :=
    "</h1>" ++ "\n" ++
    "    <p>"

/-- Literal template segment 10 of the preview document. -/
def previewSeg10 : String :=
    "</p>" ++ "\n" ++
    "" ++ "\n" ++
    "    <a href=\""

/-- Literal template segment 11 of the preview document. -/
def previewSeg11 : String :=
    "\" class=\"continue-btn\" id=\"continueBtn\">" ++ "\n" ++
    "      Continue" ++ "\n" ++
    "    </a>" ++ "\n" ++
    "" ++ "\n" ++
    "    <p class=\"footer\">You will be redirected to WhatsApp</p>" ++ "\n" ++
    "  </div>" ++ "\n" ++
    "" ++ "\n" ++
    "  <noscript>" ++ "\n" ++
    "    <style>" ++ "\n" ++
    "      .container \x7b display: none; \x7d" ++ "\n" ++
    "    </style>" ++ "\n" ++
    "    <div class=\"container\" style=\"display: block;\">" ++ "\n" ++
    "      <h1>"

/-- Literal template segment 12 of the preview document. -/
def previewSeg12 : String :=
    "</h1>" ++ "\n" ++
    "      <p>"

/-- Literal template segment 13 of the preview document. -/
def previewSeg13 : String :=
    "</p>" ++ "\n" ++
    "      <a href=\""

/-- Literal template segment 14 of the preview document. -/
def previewSeg14 : String :=
    "\" class=\"continue-btn\">Continue</a>" ++ "\n" ++
    "    </div>" ++ "\n" ++
    "  </noscript>" ++ "\n" ++
    "" ++ "\n" ++
    "  <script>" ++ "\n" ++
    "    // Auto-redirect after a short delay for non-bot users who land here directly" ++ "\n" ++
    "    // This handles cases where JS is enabled but user somehow got the preview page" ++ "\n" ++
    "    document.getElementById(\x27continueBtn\x27).addEventListener(\x27click\x27, function(e) \x7b" ++ "\n" ++
    "      // Allow the default link behavior" ++ "\n" ++
    "    \x7d);" ++ "\n" ++
    "  </script>" ++ "\n" ++
    "</body>" ++ "\n" ++
    "</html>"

/-- Conditional `og:image` meta line. -/
def ogImageMetaProperty (ogImage : String) : String :=
  if ogImage ≠ "" then
    "<meta property=\"og:image\" content=\"" ++ escapeHtml ogImage ++ "\">"
  else ""

/-- Conditional `twitter:image` meta line. -/
def twitterImageMeta (ogImage : String) : String :=
  if ogImage ≠ "" then
    "<meta name=\"twitter:image\" content=\"" ++ escapeHtml ogImage ++ "\">"
  else ""

/-- Preview page generation (`generatePreviewHtml`): the template literal
with every interpolated text HTML-escaped. -/
def generatePreviewHtml (options : PreviewOptions) : String :=
  let ogTitle := jsOrDefault options.linkConfig.ogTitle "Continue to WhatsApp"
  let ogDescription :=
    jsOrDefault options.linkConfig.ogDescription "Click to continue to your destination"
  let ogImage := jsOrDefault options.linkConfig.ogImage ""
  let redirectPath := redirectPathOf options.slug options.queryString
  let fullRedirectUrl := options.baseUrl ++ redirectPath
  let continueUrl := continueUrlOf options.slug options.queryString
  previewSeg0 ++ escapeHtml ogTitle ++
    previewSeg1 ++ escapeHtml ogTitle ++
    previewSeg2 ++ escapeHtml ogDescription ++
    previewSeg3 ++ escapeHtml fullRedirectUrl ++
    previewSeg4 ++ ogImageMetaProperty ogImage ++
    previewSeg5 ++ escapeHtml ogTitle ++
    previewSeg6 ++ escapeHtml ogDescription ++
    previewSeg7 ++ twitterImageMeta ogImage ++
    previewSeg8 ++ escapeHtml ogTitle ++
    previewSeg9 ++ escapeHtml ogDescription ++
    previewSeg10 ++ escapeHtml continueUrl ++
    previewSeg11 ++ escapeHtml ogTitle ++
    previewSeg12 ++ escapeHtml ogDescription ++
    previewSeg13 ++ escapeHtml continueUrl ++
    previewSeg14

/-! ### IP hashing (`src/lib/hash.ts`): SHA-256 -/

/-- Right rotation of a 32-bit word. -/
def rotr32 (n x : Nat) : Nat :=
  ((x >>> n) ||| (x <<< (32 - n))) % 4294967296

/-- SHA-256 round constants. -/
def sha256K : List Nat :=
  [ 0x428A2F98, 0x71374491, 0xB5C0FBCF, 0xE9B5DBA5, 0x3956C25B, 0x59F111F1,
    0x923F82A4, 0xAB1C5ED5, 0xD807AA98, 0x12835B01, 0x243185BE, 0x550C7DC3,
    0x72BE5D74, 0x80DEB1FE, 0x9BDC06A7, 0xC19BF174, 0xE49B69C1, 0xEFBE4786,
    0x0FC19DC6, 0x240CA1CC, 0x2DE92C6F, 0x4A7484AA, 0x5CB0A9DC, 0x76F988DA,
    0x983E5152, 0xA831C66D, 0xB00327C8, 0xBF597FC7, 0xC6E00BF3, 0xD5A79147,
    0x06CA6351, 0x14292967, 0x27B70A85, 0x2E1B2138, 0x4D2C6DFC, 0x53380D13,
    0x650A7354, 0x766A0ABB, 0x81C2C92E, 0x92722C85, 0xA2BFE8A1, 0xA81A664B,
    0xC24B8B70, 0xC76C51A3, 0xD192E819, 0xD6990624, 0xF40E3585, 0x106AA070,
    0x19A4C116, 0x1E376C08, 0x2748774C, 0x34B0BCB5, 0x391C0CB3, 0x4ED8AA4A,
    0x5B9CCA4F, 0x682E6FF3, 0x748F82EE, 0x78A5636F, 0x84C87814, 0x8CC70208,
    0x90BEFFFA, 0xA4506CEB, 0xBEF9A3F7, 0xC67178F2 ]

/-- SHA-256 initial hash values. -/
def sha256H0 : List Nat :=
  [ 0x6A09E667, 0xBB67AE85, 0x3C6EF372, 0xA54FF53A,
    0x510E527F, 0x9B05688C, 0x1F83D9AB, 0x5BE0CD19 ]

/-- Big-endian 8-byte encoding of a natural number. -/
def bytesBE8 (n : Nat) : List Nat :=
  [ n >>> 56 % 256, n >>> 48 % 256, n >>> 40 % 256, n >>> 32 % 256,
    n >>> 24 % 256, n >>> 16 % 256, n >>> 8 % 256, n % 256 ]

/-- Big-endian 4-byte encoding of a 32-bit word. -/
def bytesBE4 (n : Nat) : List Nat :=
  [ n >>> 24 % 256, n >>> 16 % 256, n >>> 8 % 256, n % 256 ]

/-- SHA-256 message padding: `0x80`, zeros to 56 mod 64, 8-byte bit length. -/
def sha256Pad (msg : List Nat) : List Nat :=
  msg ++ 0x80 :: List.replicate ((119 - msg.length % 64) % 64) 0 ++
    bytesBE8 (8 * msg.length)

/-- Grouping of bytes into big-endian 32-bit words. -/
def wordsBE : List Nat → List Nat
  | a :: b :: c :: d :: rest => (a * 16777216 + b * 65536 + c * 256 + d) :: wordsBE rest
  | _ => []

/-- Message-schedule step functions. -/
def smallSigma0 (x : Nat) : Nat := rotr32 7 x ^^^ rotr32 18 x ^^^ (x >>> 3)

/-- Second message-schedule step function. -/
def smallSigma1 (x : Nat) : Nat := rotr32 17 x ^^^ rotr32 19 x ^^^ (x >>> 10)

/-- Compression step functions. -/
def bigSigma0 (x : Nat) : Nat := rotr32 2 x ^^^ rotr32 13 x ^^^ rotr32 22 x

/-- Second compression step function. -/
def bigSigma1 (x : Nat) : Nat := rotr32 6 x ^^^ rotr32 11 x ^^^ rotr32 25 x

/-- Choice function. -/
def sha256Ch (e f g : Nat) : Nat := (e &&& f) ^^^ ((e ^^^ 0xffffffff) &&& g)

/-- Majority function. -/
def sha256Maj (a b c : Nat) : Nat := (a &&& b) ^^^ (a &&& c) ^^^ (b &&& c)

/-- Extension of the 16-word block to the 64-word message schedule. -/
def sha256Extend (w : List Nat) : Nat → List Nat
  | 0 => w
  | fuel + 1 =>
    let n := w.length
    let nw := (smallSigma1 (w.getD (n - 2) 0) + w.getD (n - 7) 0 +
        smallSigma0 (w.getD (n - 15) 0) + w.getD (n - 16) 0) % 4294967296
    sha256Extend (w ++ [nw]) fuel

/-- One round of the SHA-256 compression function. -/
def sha256Round (s : List Nat) (kw : Nat × Nat) : List Nat :=
  let a := s.getD 0 0
  let b := s.getD 1 0
  let c := s.getD 2 0
  let d := s.getD 3 0
  let e := s.getD 4 0
  let f := s.getD 5 0
  let g := s.getD 6 0
  let hh := s.getD 7 0
  let t1 := (hh + bigSigma1 e + sha256Ch e f g + kw.1 + kw.2) % 4294967296
  let t2 := (bigSigma0 a + sha256Maj a b c) % 4294967296
  [(t1 + t2) % 4294967296, a, b, c, (d + t1) % 4294967296, e, f, g]

/-- Compression of one 64-byte block into the running hash state. -/
def sha256Block (h : List Nat) (block : List Nat) : List Nat :=
  let w := sha256Extend (wordsBE block) 48
  let final := (sha256K.zip w).foldl sha256Round h
  (h.zip final).map fun xy => (xy.1 + xy.2) % 4294967296

/-- Folding of the compression function over every 64-byte block; the first
argument is fuel bounding the number of blocks (structural recursion so that
the definition reduces in the kernel). -/
def sha256Blocks : Nat → List Nat → List Nat → List Nat
  | 0, h, _ => h
  | _, h, [] => h
  | fuel + 1, h, b :: rest =>
    sha256Blocks fuel (sha256Block h ((b :: rest).take 64)) ((b :: rest).drop 64)

/-- SHA-256 digest of a byte list, as 32 bytes. -/
def sha256Bytes (msg : List Nat) : List Nat :=
  let padded := sha256Pad msg
  ((sha256Blocks padded.length sha256H0 padded).map bytesBE4).join

/-- Lower-case hex digit. -/
def hexLowerChar (n : Nat) : Char :=
  if n < 10 then Char.ofNat (48 + n) else Char.ofNat (87 + n)

/-- Lower-case hex rendering of a byte list (`digest('hex')`). -/
def toHexChars (bytes : List Nat) : List Char :=
  (bytes.map fun b => [hexLowerChar (b / 16), hexLowerChar (b % 16)]).join

/-- Default salt of `hashIP`. -/
def defaultSalt : String := "branch-redirect-salt"

/-- One-way IP hashing (`hashIP`): falsy IP yields the sentinel `unknown`;
otherwise the first 16 hex characters of `sha256(salt + ":" + ip)`. -/
def hashIP (ip : Option String) (salt : String) : String :=
  match ip with
  | none => "unknown"
  | some s =>
    if s = "" then "unknown"
    else String.mk ((toHexChars (sha256Bytes (utf8Str (salt ++ ":" ++ s)))).take 16)

/-! ### Auxiliary definitions used by the claim statements -/

/-- Query component of the continue link: the stripped query string with
`_continue=1` appended (after `&` when non-empty, alone otherwise). -/
def continueQueryOf (qs : String) : String :=
  if qs = "" then "_continue=1" else qs ++ "&_continue=1"

/-- Modelled from the spec: the nullish-coalescing resolution
`params.phone ?? linkEntry.defaultPhone` stated by the claim (the source
uses JS `||` instead; the two differ on empty strings). -/
def nullishCoalesce (a b : Option String) : Option String :=
  match a with
  | some x => some x
  | none => b

/-- Lower-case hexadecimal character test. -/
def isLowerHexChar (c : Char) : Bool :=
  ('0' ≤ c ∧ c ≤ '9') ∨ ('a' ≤ c ∧ c ≤ 'f')

/-- Concrete link entry of the host-rejection example: the Android flow URL
points at a host outside the allowlist. -/
def evilEntry : LinkEntry :=
  { androidFlowUrl := "https://evil.com/x"
    iosWhatsappBaseUrl := "https://wa.me/"
    desktopWhatsappBaseUrl := "https://wa.me/"
    defaultPhone := some "1"
    defaultText := none
    ogTitle := none
    ogDescription := none
    ogImage := none }

/-- Concrete link entry of the wa.me shaping example. -/
def waEntry : LinkEntry :=
  { androidFlowUrl := "https://wa.me/"
    iosWhatsappBaseUrl := "https://wa.me/"
    desktopWhatsappBaseUrl := "https://wa.me/"
    defaultPhone := some "919999999999"
    defaultText := some "Hi"
    ogTitle := none
    ogDescription := none
    ogImage := none }

/-- Concrete link entry of the missing-phone example. -/
def noPhoneEntry : LinkEntry :=
  { androidFlowUrl := "https://wa.me/"
    iosWhatsappBaseUrl := "https://wa.me/"
    desktopWhatsappBaseUrl := "https://wa.me/"
    defaultPhone := none
    defaultText := none
    ogTitle := none
    ogDescription := none
    ogImage := none }

/-- Concrete parameter map carrying an empty-string `phone` value. -/
def emptyPhoneParams : RedirectParams := [("phone", some "")]

/-- Concrete preview options with a script tag in the OpenGraph title. -/
def scriptTitleOptions : PreviewOptions :=
  { slug := "s"
    linkConfig :=
      { androidFlowUrl := "https://wa.me/"
        iosWhatsappBaseUrl := "https://wa.me/"
        desktopWhatsappBaseUrl := "https://wa.me/"
        defaultPhone := some "1"
        defaultText := none
        ogTitle := some "<script>x</script>"
        ogDescription := none
        ogImage := none }
    queryString := "a=1"
    baseUrl := "http://localhost" }

/-! ## Lemmas and claim theorems -/

/-- The boolean prefix test agrees with `List.IsPrefix`. -/
theorem isPrefixList_iff (p h : List Char) : isPrefixList p h = true ↔ p <+: h := by
  induction p generalizing h with
  | nil => simp [isPrefixList]
  | cons c cs ih =>
    cases h with
    | nil => simp [isPrefixList]
    | cons d ds =>
      simp only [isPrefixList, Bool.and_eq_true, decide_eq_true_eq, ih,
        List.cons_prefix_cons]

/-- The boolean containment test agrees with `List.IsInfix`. -/
theorem containsSub_iff (hay needle : List Char) :
    containsSub hay needle = true ↔ needle <:+: hay := by
  induction hay with
  | nil =>
    simp [containsSub, isPrefixList_iff, List.prefix_nil, List.infix_nil]
  | cons c t ih =>
    rw [containsSub]
    simp only [Bool.or_eq_true, isPrefixList_iff, ih, List.infix_cons_iff]

/-- Claim C10: `isHostAllowed` is total on arbitrary strings: any input that
does not parse as an absolute URL (for example `not-a-url` or the empty
string) yields `false` rather than an exception, for every allowed-host
set. -/
theorem isHostAllowed_total (s : String) (hosts : List String)
    (h : parseURL s = none) :
    isHostAllowed s hosts = false ∧ isHostAllowed "not-a-url" hosts = false ∧
      isHostAllowed "" hosts = false := by
  refine ⟨?_, ?_, ?_⟩
  · simp [isHostAllowed, h]
  · have hn : parseURL "not-a-url" = none := by decide
    simp [isHostAllowed, hn]
  · have hn : parseURL "" = none := by decide
    simp [isHostAllowed, hn]

/-- Witness for C10 at the concrete unparseable input. -/
theorem isHostAllowed_total_witness :
    isHostAllowed "not-a-url" ["wa.me"] = false :=
  (isHostAllowed_total "not-a-url" ["wa.me"] (by decide)).1

/-- Record with every descriptive field absent. -/
theorem getPlatformInfo_empty_fields (uaParse : String → UAParseResult) :
    getPlatformInfo uaParse none =
      { platform := Platform.desktop, browser := none, browserVersion := none
        os := none, osVersion := none, device := none, deviceType := none } := rfl

/-- Claim C6: platform classification checks the iOS pattern before the
Android pattern (a user-agent matching both classifies as iOS), a missing
or empty user-agent classifies as desktop with every descriptive field
absent, and classification is a total function. -/
theorem detectPlatform_priority (ua : String) (uaParse : String → UAParseResult)
    (hios : iosRegexTest ua = true) (_ : androidRegexTest ua = true) :
    detectPlatform (some ua) = Platform.ios ∧
      detectPlatform none = Platform.desktop ∧
      detectPlatform (some "") = Platform.desktop ∧
      getPlatformInfo uaParse none =
        { platform := Platform.desktop, browser := none, browserVersion := none
          os := none, osVersion := none, device := none, deviceType := none } ∧
      getPlatformInfo uaParse (some "") =
        { platform := Platform.desktop, browser := none, browserVersion := none
          os := none, osVersion := none, device := none, deviceType := none } := by
  refine ⟨?_, rfl, rfl, rfl, rfl⟩
  by_cases hu : ua = ""
  · subst hu
    exact absurd hios (by decide)
  · simp [detectPlatform, hu, hios]

/-- Witness for C6 at a contrived user-agent matching both patterns. -/
theorem detectPlatform_priority_witness :
    detectPlatform (some "iPad Android contrived") = Platform.ios :=
  (detectPlatform_priority "iPad Android contrived"
    (fun _ => { browser := none, browserVersion := none, os := none
                osVersion := none, device := none, deviceType := none })
    (by decide) (by decide)).1

/-- Membership characterization of the passthrough extraction. -/
theorem mem_extractPassthroughParams (params : RedirectParams) (k v : String) :
    (k, v) ∈ extractPassthroughParams params ↔
      ((k, some v) ∈ params ∧ ¬(k = "phone" ∨ k = "text") ∧ v ≠ "") := by
  induction params with
  | nil => simp [extractPassthroughParams]
  | cons kv rest ih =>
    obtain ⟨k0, v0⟩ := kv
    by_cases h0 : k0 = "phone" ∨ k0 = "text"
    · simp only [extractPassthroughParams, if_pos h0, ih, List.mem_cons,
        Prod.mk.injEq]
      constructor
      · rintro ⟨hm, hk, hv⟩
        exact ⟨Or.inr hm, hk, hv⟩
      · rintro ⟨⟨hk0, hv0⟩ | hm, hk, hv⟩
        · rw [hk0] at hk
          exact absurd h0 hk
        · exact ⟨hm, hk, hv⟩
    · cases v0 with
      | none =>
        simp only [extractPassthroughParams, if_neg h0, ih, List.mem_cons,
          Prod.mk.injEq]
        constructor
        · rintro ⟨hm, hk, hv⟩
          exact ⟨Or.inr hm, hk, hv⟩
        · rintro ⟨⟨hk0, hv0⟩ | hm, hk, hv⟩
          · exact absurd hv0 (by simp)
          · exact ⟨hm, hk, hv⟩
      | some s =>
        by_cases hs : s = ""
        · subst hs
          have hE : extractPassthroughParams ((k0, some "") :: rest) =
              extractPassthroughParams rest := by
            simp [extractPassthroughParams, h0]
          rw [hE]
          simp only [ih, List.mem_cons, Prod.mk.injEq]
          constructor
          · rintro ⟨hm, hk, hv⟩
            exact ⟨Or.inr hm, hk, hv⟩
          · rintro ⟨⟨hk0, hv0⟩ | hm, hk, hv⟩
            · injection hv0 with h3
              exact absurd h3 hv
            · exact ⟨hm, hk, hv⟩
        · simp only [extractPassthroughParams, if_neg h0, if_neg hs,
            List.mem_cons, Prod.mk.injEq, ih]
          constructor
          · rintro (⟨hk0, hv0⟩ | ⟨hm, hk, hv⟩)
            · subst hk0; subst hv0
              exact ⟨Or.inl ⟨rfl, rfl⟩, h0, hs⟩
            · exact ⟨Or.inr hm, hk, hv⟩
          · rintro ⟨⟨hk0, hv0⟩ | hm, hk, hv⟩
            · injection hv0 with h3
              exact Or.inl ⟨hk0, h3⟩
            · exact Or.inr ⟨hm, hk, hv⟩

/-- Lookup is unaffected by deleting a differently-keyed entry set. -/
theorem lookup_paramsDelete_ne (ps : List (String × String)) (k kk : String)
    (h : k ≠ kk) : List.lookup k (paramsDelete ps kk) = List.lookup k ps := by
  induction ps with
  | nil => simp [paramsDelete]
  | cons kv rest ih =>
    obtain ⟨a, b⟩ := kv
    by_cases ha : a = kk
    · subst ha
      have hba : (k == a) = false := by simp [h]
      simp [paramsDelete, List.lookup, hba, ih]
    · simp [paramsDelete, ha, List.lookup, ih]

/-- Lookup is unaffected by setting a different key. -/
theorem lookup_paramsSet_ne (ps : List (String × String)) (k kk v : String)
    (h : k ≠ kk) : List.lookup k (paramsSet ps kk v) = List.lookup k ps := by
  induction ps with
  | nil =>
    have : (k == kk) = false := by simp [h]
    simp [paramsSet, List.lookup, this]
  | cons kv rest ih =>
    obtain ⟨a, b⟩ := kv
    by_cases ha : a = kk
    · subst ha
      have hk : (k == a) = false := by simp [h]
      simp [paramsSet, List.lookup, hk, lookup_paramsDelete_ne rest k a h]
    · simp [paramsSet, ha, List.lookup, ih]

/-- Key presence is unaffected by deleting a different key. -/
theorem any_paramsDelete_ne (l : List (String × String)) (kk k : String)
    (h : k ≠ kk) :
    (paramsDelete l kk).any (fun kv => kv.1 = k) =
      l.any (fun kv => kv.1 = k) := by
  induction l with
  | nil => simp [paramsDelete]
  | cons kv rest ih =>
    obtain ⟨a, b⟩ := kv
    by_cases ha : a = kk
    · subst ha
      have hk2 : (decide (a = k)) = false := by simp [Ne.symm h]
      simp [paramsDelete, List.any_cons, hk2, ih]
    · simp [paramsDelete, ha, List.any_cons, ih]

/-- Key presence is unaffected by setting a different key. -/
theorem paramsHas_paramsSet_ne (ps : List (String × String)) (k kk v : String)
    (h : k ≠ kk) : paramsHas (paramsSet ps kk v) k = paramsHas ps k := by
  induction ps with
  | nil => simp [paramsSet, paramsHas, h, Ne.symm h]
  | cons kv rest ih =>
    obtain ⟨a, b⟩ := kv
    by_cases ha : a = kk
    · subst ha
      rw [show paramsSet ((a, b) :: rest) a v = (a, v) :: paramsDelete rest a from
        by simp [paramsSet]]
      simp only [paramsHas, List.any_cons]
      rw [any_paramsDelete_ne rest a k h]
    · simp only [paramsSet, if_neg ha, paramsHas, List.any_cons] at ih ⊢
      rw [ih]

/-- First-write-wins: appending passthrough parameters never changes the
value of a key already present on the URL. -/
theorem addMissingParams_first_write_wins (ps : List (String × String))
    (u : URLModel) (k : String) (h : paramsHas u.params k = true) :
    List.lookup k (addMissingParams u ps).params = List.lookup k u.params := by
  induction ps generalizing u with
  | nil => simp [addMissingParams]
  | cons kv rest ih =>
    obtain ⟨kk, vv⟩ := kv
    by_cases hh : paramsHas u.params kk
    · simp only [addMissingParams, List.foldl_cons, if_pos hh]
      exact ih u h
    · have hne : k ≠ kk := by
        intro he; subst he; exact hh h
      simp only [addMissingParams, List.foldl_cons, if_neg hh]
      have h2 : paramsHas (paramsSet u.params kk vv) k = true := by
        rw [paramsHas_paramsSet_ne u.params k kk vv hne]; exact h
      have := ih { u with params := paramsSet u.params kk vv } h2
      simp only [addMissingParams] at this
      rw [this]
      exact lookup_paramsSet_ne u.params k kk vv hne

/-- Claim C7: the passthrough map is the input map minus the reserved keys
`phone`/`text` and minus empty or absent values (original casing kept), and
appending passthrough parameters to a URL never overwrites an existing key,
so `phone` and `text` never appear among passthrough parameters. -/
theorem extractPassthroughParams_spec (params : RedirectParams) (k v : String)
    (u : URLModel) (ps : List (String × String))
    (hk : paramsHas u.params k = true) :
    ((k, v) ∈ extractPassthroughParams params ↔
      ((k, some v) ∈ params ∧ ¬(k = "phone" ∨ k = "text") ∧ v ≠ "")) ∧
      ("phone", v) ∉ extractPassthroughParams params ∧
      ("text", v) ∉ extractPassthroughParams params ∧
      List.lookup k (addMissingParams u ps).params = List.lookup k u.params := by
  refine ⟨mem_extractPassthroughParams params k v, ?_, ?_,
    addMissingParams_first_write_wins ps u k hk⟩
  · intro hm
    have := (mem_extractPassthroughParams params "phone" v).1 hm
    exact this.2.1 (Or.inl rfl)
  · intro hm
    have := (mem_extractPassthroughParams params "text" v).1 hm
    exact this.2.1 (Or.inr rfl)

/-- Witness for C7 at concrete inputs. -/
theorem extractPassthroughParams_spec_witness :
    (("utm_source", "x") ∈
        extractPassthroughParams
          [("phone", some "1"), ("utm_source", some "x"), ("e", some "")] ↔
      (("utm_source", some "x") ∈
          ([("phone", some "1"), ("utm_source", some "x"), ("e", some "")] :
            RedirectParams) ∧
        ¬("utm_source" = "phone" ∨ "utm_source" = "text") ∧ "x" ≠ "")) ∧
      ("phone", "x") ∉
        extractPassthroughParams
          [("phone", some "1"), ("utm_source", some "x"), ("e", some "")] ∧
      ("text", "x") ∉
        extractPassthroughParams
          [("phone", some "1"), ("utm_source", some "x"), ("e", some "")] ∧
      List.lookup "utm_source"
          (addMissingParams
            { scheme := "https", host := "wa.me", path := "/1"
              params := [("text", "Hi"), ("utm_source", "orig")] }
            [("text", "nope"), ("utm_source", "x")]).params =
        List.lookup "utm_source"
          ({ scheme := "https", host := "wa.me", path := "/1"
             params := [("text", "Hi"), ("utm_source", "orig")] } : URLModel).params :=
  extractPassthroughParams_spec
    [("phone", some "1"), ("utm_source", some "x"), ("e", some "")]
    "utm_source" "x"
    { scheme := "https", host := "wa.me", path := "/1"
      params := [("text", "Hi"), ("utm_source", "orig")] }
    [("text", "nope"), ("utm_source", "x")] (by decide)

/-- The host-rejection error message never coincides with the missing-phone
message. -/
theorem hostNotAllowedMsg_ne_phoneRequiredMsg (s : String) :
    "Redirect to host not allowed: " ++ s ≠ phoneRequiredMsg := by
  intro h
  have hd := congrArg String.data h
  rw [String.data_append] at hd
  simp [phoneRequiredMsg] at hd

/-- The PhoneRequired outcome appears exactly when the resolved phone is
falsy (absent or empty). -/
theorem buildRedirectUrl_phoneRequired_iff (platform : Platform)
    (linkConfig : LinkEntry) (params : RedirectParams)
    (allowedHosts : List String) :
    buildRedirectUrl platform linkConfig params allowedHosts =
        some phoneRequiredResult ↔
      jsTruthy (resolvedPhone params linkConfig) = false := by
  constructor
  · intro h
    by_cases hp : jsTruthy (resolvedPhone params linkConfig)
    · exfalso
      cases hb : buildTargetUrl platform linkConfig
          ((resolvedPhone params linkConfig).getD "")
          (resolvedText params linkConfig) (extractPassthroughParams params) with
      | none => simp [buildRedirectUrl, hp, hb] at h
      | some t =>
        by_cases hall : isHostAllowed t allowedHosts
        · simp [buildRedirectUrl, hp, hb, hall, phoneRequiredResult] at h
        · cases hu : parseURL t with
          | none => simp [buildRedirectUrl, hp, hb, hall, hu] at h
          | some u =>
            simp [buildRedirectUrl, hp, hb, hall, hu, phoneRequiredResult,
              BuildUrlResult.mk.injEq] at h
            exact hostNotAllowedMsg_ne_phoneRequiredMsg u.host h
    · simpa using hp
  · intro h
    simp [buildRedirectUrl, h]

/-- Claim C3 (amended): `buildRedirectUrl` resolves the phone with JS `||`
semantics (`params.phone || defaultPhone`) and fails with PhoneRequired
exactly when the resolved phone is absent or empty; the text resolves to
`params.text || defaultText || ""`, a non-empty caller value takes
precedence, and an absent text resolves to the empty string, never a
failure. -/
theorem buildRedirectUrl_phone_text_resolution (platform : Platform)
    (linkConfig : LinkEntry) (params : RedirectParams)
    (allowedHosts : List String) :
    (buildRedirectUrl platform linkConfig params allowedHosts =
        some phoneRequiredResult ↔
      jsTruthy (resolvedPhone params linkConfig) = false) ∧
      (jsTruthy (getParam params "phone") = true →
        resolvedPhone params linkConfig = getParam params "phone") ∧
      (jsTruthy (getParam params "text") = true →
        resolvedText params linkConfig = (getParam params "text").getD "") ∧
      (jsTruthy (getParam params "text") = false →
        jsTruthy linkConfig.defaultText = true →
        resolvedText params linkConfig = linkConfig.defaultText.getD "") ∧
      (jsTruthy (getParam params "text") = false →
        jsTruthy linkConfig.defaultText = false →
        resolvedText params linkConfig = "") := by
  refine ⟨buildRedirectUrl_phoneRequired_iff platform linkConfig params allowedHosts,
    ?_, ?_, ?_, ?_⟩
  · intro h
    simp [resolvedPhone, jsOrStr, h]
  · intro h
    cases ht : getParam params "text" with
    | none => rw [ht] at h; simp [jsTruthy] at h
    | some t =>
      rw [ht] at h
      simp only [jsTruthy, ne_eq, decide_eq_true_eq] at h
      simp [resolvedText, jsOrStr, jsTruthy, jsOrDefault, ht, h]
  · intro h hd
    cases hdt : linkConfig.defaultText with
    | none => rw [hdt] at hd; simp [jsTruthy] at hd
    | some d =>
      rw [hdt] at hd
      simp only [jsTruthy, ne_eq, decide_eq_true_eq] at hd
      simp [resolvedText, jsOrStr, h, hdt, jsOrDefault, hd]
  · intro h hd
    cases hdt : linkConfig.defaultText with
    | none => simp [resolvedText, jsOrStr, h, hdt, jsOrDefault]
    | some d =>
      rw [hdt] at hd
      have hd2 : d = "" := by simpa [jsTruthy] using hd
      simp [resolvedText, jsOrStr, h, hdt, jsOrDefault, hd2]

/-- Witness for C3's amended theorem at concrete inputs. -/
theorem buildRedirectUrl_phone_text_resolution_witness :
    resolvedPhone [("phone", some "7")] waEntry = getParam [("phone", some "7")] "phone" ∧
      resolvedText [("text", some "Yo")] waEntry =
        (getParam [("text", some "Yo")] "text").getD "" ∧
      resolvedText [] noPhoneEntry = "" :=
  ⟨(buildRedirectUrl_phone_text_resolution .ios waEntry [("phone", some "7")] ["wa.me"]).2.1
      (by decide),
    (buildRedirectUrl_phone_text_resolution .ios waEntry [("text", some "Yo")] ["wa.me"]).2.2.1
      (by decide),
    (buildRedirectUrl_phone_text_resolution .ios noPhoneEntry [] ["wa.me"]).2.2.2.2
      (by decide) (by decide)⟩

/-- Counterexample for C3 as frozen: with `params.phone = ""` and no default
phone, the claimed nullish-coalescing resolution yields the present value
`""` (so the claim predicts no PhoneRequired failure), yet the code returns
the PhoneRequired failure, because the source uses JS `||`, under which the
empty string falls through. -/
theorem buildRedirectUrl_phoneRequired_counterexample :
    nullishCoalesce (getParam emptyPhoneParams "phone") noPhoneEntry.defaultPhone =
        some "" ∧
      buildRedirectUrl .ios noPhoneEntry emptyPhoneParams ["wa.me"] =
        some phoneRequiredResult :=
  ⟨rfl, by decide⟩

/-- Claim C1: a success outcome's URL has a hostname whose lower-casing is a
member of the allowed-host set; when the constructed target URL's hostname
fails the (case-insensitive) allowlist membership test, the outcome is the
host-not-allowed failure carrying the offending hostname in its detail; and
the concrete `evil.com` example fails exactly so. -/
theorem buildRedirectUrl_host_allowlist (platform : Platform)
    (linkConfig : LinkEntry) (params : RedirectParams)
    (allowedHosts : List String) :
    (∀ r, buildRedirectUrl platform linkConfig params allowedHosts = some r →
        r.isValid = true →
        ∃ u, parseURL r.url = some u ∧
          allowedHosts.contains (toLowerStr u.host) = true) ∧
      (∀ t u, jsTruthy (resolvedPhone params linkConfig) = true →
        buildTargetUrl platform linkConfig
            ((resolvedPhone params linkConfig).getD "")
            (resolvedText params linkConfig)
            (extractPassthroughParams params) = some t →
        parseURL t = some u →
        allowedHosts.contains (toLowerStr u.host) = false →
        buildRedirectUrl platform linkConfig params allowedHosts =
          some { url := "", isValid := false
                 error := some ("Redirect to host not allowed: " ++ u.host) }) ∧
      buildRedirectUrl .android evilEntry [] ["wa.me"] =
        some { url := "", isValid := false
               error := some "Redirect to host not allowed: evil.com" } := by
  refine ⟨?_, ?_, by decide⟩
  · intro r hr hv
    by_cases hp : jsTruthy (resolvedPhone params linkConfig)
    · cases hb : buildTargetUrl platform linkConfig
          ((resolvedPhone params linkConfig).getD "")
          (resolvedText params linkConfig) (extractPassthroughParams params) with
      | none => simp [buildRedirectUrl, hp, hb] at hr
      | some t =>
        by_cases hall : isHostAllowed t allowedHosts
        · have heq : buildRedirectUrl platform linkConfig params allowedHosts =
              some { url := t, isValid := true, error := none } := by
            simp [buildRedirectUrl, hp, hb, hall]
          rw [heq] at hr
          injection hr with hr1
          subst hr1
          revert hall
          simp only [isHostAllowed]
          cases hu : parseURL t with
          | none => simp
          | some u =>
            intro hc
            exact ⟨u, rfl, by simpa using hc⟩
        · exfalso
          cases hu : parseURL t with
          | none =>
            have heq : buildRedirectUrl platform linkConfig params allowedHosts =
                none := by
              simp [buildRedirectUrl, hp, hb, hall, hu]
            rw [heq] at hr
            cases hr
          | some u =>
            have heq : buildRedirectUrl platform linkConfig params allowedHosts =
                some { url := "", isValid := false
                       error := some ("Redirect to host not allowed: " ++ u.host) } := by
              simp [buildRedirectUrl, hp, hb, hall, hu]
            rw [heq] at hr
            injection hr with hr1
            subst hr1
            simp at hv
    · have heq : buildRedirectUrl platform linkConfig params allowedHosts =
          some phoneRequiredResult := by
        simp [buildRedirectUrl, hp]
      rw [heq] at hr
      injection hr with hr1
      subst hr1
      simp [phoneRequiredResult] at hv
  · intro t u hp hb hu hc
    have hall : isHostAllowed t allowedHosts = false := by
      simpa [isHostAllowed, hu] using hc
    simp [buildRedirectUrl, hp, hb, hall, hu]

/-- Witness for C1: the success side at the wa.me example and the failure
side at the evil.com example. -/
theorem buildRedirectUrl_host_allowlist_witness :
    (∃ u, parseURL "https://wa.me/919999999999?text=Hi" = some u ∧
        (["wa.me"] : List String).contains (toLowerStr u.host) = true) ∧
      buildRedirectUrl .android evilEntry [] ["wa.me"] =
        some { url := "", isValid := false
               error := some ("Redirect to host not allowed: " ++ "evil.com") } :=
  ⟨(buildRedirectUrl_host_allowlist .ios waEntry [] ["wa.me"]).1
      { url := "https://wa.me/919999999999?text=Hi", isValid := true, error := none }
      (by decide) rfl,
    (buildRedirectUrl_host_allowlist .android evilEntry [] ["wa.me"]).2.1
      "https://evil.com/x?phone=1&text="
      { scheme := "https", host := "evil.com", path := "/x"
        params := [("phone", "1"), ("text", "")] }
      (by decide) (by decide) (by decide) (by decide)⟩

/-- Claim C4: WhatsApp URL shaping dispatches on the base URL's host.  For
host exactly `wa.me` the path becomes `/<phone>` unless it already has a
`/<digits>` segment and `text` is set as a query parameter; for
`api.whatsapp.com`/`web.whatsapp.com` the path is forced to `/send` unless
it already contains `/send` and both `phone` and `text` are set.  Query
serialization is standard form encoding (space becomes `+`, not `%20`),
and the two concrete examples produce exactly the claimed URLs. -/
theorem buildWhatsAppUrl_shaping (base phone text : String)
    (url0 : URLModel) (pts : List (String × String))
    (hparse : parseURL base = some url0) :
    (toLowerStr url0.host = "wa.me" →
        buildWhatsAppUrl base phone text pts =
          some (urlToString (addMissingParams
            { url0 with
              path := if pathHasPhoneSegment url0.path then url0.path
                      else "/" ++ phone
              params := paramsSet url0.params "text" text } pts))) ∧
      (toLowerStr url0.host = "api.whatsapp.com" ∨
          toLowerStr url0.host = "web.whatsapp.com" →
        buildWhatsAppUrl base phone text pts =
          some (urlToString (addMissingParams
            { url0 with
              path := if containsStr url0.path "/send" then url0.path
                      else "/send"
              params := paramsSet (paramsSet url0.params "phone" phone)
                "text" text } pts))) ∧
      String.mk (formEncode "Hello World") = "Hello+World" ∧
      buildWhatsAppUrl "https://wa.me/" "919999999999" "Hi" [] =
        some "https://wa.me/919999999999?text=Hi" ∧
      buildWhatsAppUrl "https://api.whatsapp.com/" "919999999999" "Hello World" [] =
        some "https://api.whatsapp.com/send?phone=919999999999&text=Hello+World" := by
  refine ⟨?_, ?_, by decide, by decide, by decide⟩
  · intro hh
    by_cases hseg : pathHasPhoneSegment url0.path
    · simp [buildWhatsAppUrl, hparse, hh, hseg]
    · simp [buildWhatsAppUrl, hparse, hh, hseg]
  · intro hh
    have hne : ¬ toLowerStr url0.host = "wa.me" := by
      rcases hh with h | h <;> rw [h] <;> decide
    by_cases hsend : containsStr url0.path "/send"
    · rcases hh with h | h <;> simp [buildWhatsAppUrl, hparse, h, hne, hsend]
    · rcases hh with h | h <;> simp [buildWhatsAppUrl, hparse, h, hne, hsend]

/-- Witness for C4 at the two concrete base URLs of the claim. -/
theorem buildWhatsAppUrl_shaping_witness :
    buildWhatsAppUrl "https://wa.me/" "919999999999" "Hi" [] =
        some (urlToString (addMissingParams
          { scheme := "https", host := "wa.me"
            path := if pathHasPhoneSegment "/" then "/" else "/" ++ "919999999999"
            params := paramsSet [] "text" "Hi" } [])) ∧
      buildWhatsAppUrl "https://api.whatsapp.com/" "919999999999" "Hello World" [] =
        some (urlToString (addMissingParams
          { scheme := "https", host := "api.whatsapp.com"
            path := if containsStr "/" "/send" then "/" else "/send"
            params := paramsSet (paramsSet [] "phone" "919999999999")
              "text" "Hello World" } [])) :=
  ⟨(buildWhatsAppUrl_shaping "https://wa.me/" "919999999999" "Hi"
      { scheme := "https", host := "wa.me", path := "/", params := [] } []
      (by decide)).1 (by decide),
    (buildWhatsAppUrl_shaping "https://api.whatsapp.com/" "919999999999"
      "Hello World"
      { scheme := "https", host := "api.whatsapp.com", path := "/", params := [] }
      [] (by decide)).2.1 (Or.inl (by decide))⟩

/-- The case-insensitive literal finder returns an infix of the haystack. -/
theorem findLitCI_infix (pat hay m : List Char)
    (h : findLitCI pat hay = some m) : m <:+: hay := by
  induction hay with
  | nil =>
    rw [findLitCI] at h
    by_cases hp : isPrefixList (pat.map toLowerChar) [] = true
    · rw [if_pos hp] at h
      injection h with h1
      subst h1
      exact List.infix_refl []
    · rw [if_neg hp] at h
      cases h
  | cons c t ih =>
    rw [findLitCI] at h
    by_cases hp : isPrefixList (pat.map toLowerChar) ((c :: t).map toLowerChar) = true
    · rw [if_pos hp] at h
      injection h with h1
      subst h1
      exact (List.take_prefix pat.length (c :: t)).isInfix
    · rw [if_neg hp] at h
      exact List.infix_cons (ih h)

/-- The word-boundary finder returns an infix of the haystack. -/
theorem findLitWordEndCI_infix (pat hay m : List Char)
    (h : findLitWordEndCI pat hay = some m) : m <:+: hay := by
  induction hay with
  | nil =>
    rw [findLitWordEndCI] at h
    by_cases hp : isPrefixList (pat.map toLowerChar) [] = true ∧ wordEndsAt [] = true
    · rw [if_pos hp] at h
      injection h with h1
      subst h1
      exact List.infix_refl []
    · rw [if_neg hp] at h
      cases h
  | cons c t ih =>
    rw [findLitWordEndCI] at h
    by_cases hp : isPrefixList (pat.map toLowerChar) ((c :: t).map toLowerChar) = true ∧
        wordEndsAt ((c :: t).drop pat.length) = true
    · rw [if_pos hp] at h
      injection h with h1
      subst h1
      exact (List.take_prefix pat.length (c :: t)).isInfix
    · rw [if_neg hp] at h
      exact List.infix_cons (ih h)

/-- A matched bot name is a literal substring of the user-agent. -/
theorem patMatch_infix (p : BotPattern) (ua m : String)
    (h : patMatch p ua = some m) : m.toList <:+: ua.toList := by
  cases p with
  | lit s =>
    simp only [patMatch, Option.map_eq_some'] at h
    obtain ⟨l, hl, hm⟩ := h
    subst hm
    exact findLitCI_infix s.toList ua.toList l hl
  | litWordEnd s =>
    simp only [patMatch, Option.map_eq_some'] at h
    obtain ⟨l, hl, hm⟩ := h
    subst hm
    exact findLitWordEndCI_infix s.toList ua.toList l hl

/-- The identification loop returns the first matching rule's capture. -/
theorem identifyBotLoop_eq_find (ua : String) (l : List BotPattern) :
    identifyBotLoop ua l =
      (l.find? fun p => patTest p ua).map fun p =>
        match patMatch p ua with
        | some m => m
        | none => patSource p := by
  induction l with
  | nil => simp [identifyBotLoop]
  | cons p rest ih =>
    by_cases hp : patTest p ua
    · simp [identifyBotLoop, hp, List.find?_cons, ih]
    · have hp2 : patTest p ua = false := by simpa using hp
      simp [identifyBotLoop, hp2, List.find?_cons, ih]

/-- Claim C8: bot classification of an undefined or empty user-agent is
`(false, none)`; otherwise the ordered catalog is scanned, the first
matching rule wins (a `find?` over `BOT_PATTERNS`), and the identified name
is the literal matched substring of the user-agent; classification is a
total function. -/
theorem isBot_identifyBot_spec (ua m : String) (hm : identifyBot (some ua) = some m) :
    (isBot none = false ∧ isBot (some "") = false ∧
        identifyBot none = none ∧ identifyBot (some "") = none) ∧
      (ua ≠ "" →
        identifyBot (some ua) =
          (BOT_PATTERNS.find? fun p => patTest p ua).map fun p =>
            match patMatch p ua with
            | some m2 => m2
            | none => patSource p) ∧
      (ua ≠ "" → isBot (some ua) = BOT_PATTERNS.any fun p => patTest p ua) ∧
      m.toList <:+: ua.toList := by
  refine ⟨⟨rfl, rfl, rfl, rfl⟩, ?_, ?_, ?_⟩
  · intro hne
    simp only [identifyBot, if_neg hne]
    exact identifyBotLoop_eq_find ua BOT_PATTERNS
  · intro hne
    simp [isBot, hne]
  · by_cases hne : ua = ""
    · subst hne
      simp [identifyBot] at hm
    · simp only [identifyBot, if_neg hne] at hm
      rw [identifyBotLoop_eq_find] at hm
      simp only [Option.map_eq_some'] at hm
      obtain ⟨p, hp, hcap⟩ := hm
      have htest : patTest p ua = true := by
        have := List.find?_some hp
        simpa using this
      cases hc : patMatch p ua with
      | none => simp [patTest, hc] at htest
      | some m2 =>
        rw [hc] at hcap
        simp only at hcap
        subst hcap
        exact patMatch_infix p ua m2 hc

/-- Witness for C8 at a concrete bot user-agent. -/
theorem isBot_identifyBot_spec_witness :
    identifyBot (some "TelegramBot (like TwitterBot)") =
        ((BOT_PATTERNS.find? fun p => patTest p "TelegramBot (like TwitterBot)").map
          fun p =>
            match patMatch p "TelegramBot (like TwitterBot)" with
            | some m2 => m2
            | none => patSource p) ∧
      ("TwitterBot" : String).toList <:+:
        ("TelegramBot (like TwitterBot)" : String).toList :=
  ⟨((isBot_identifyBot_spec "TelegramBot (like TwitterBot)" "TwitterBot"
      (by decide)).2.1 (by decide)),
    (isBot_identifyBot_spec "TelegramBot (like TwitterBot)" "TwitterBot"
      (by decide)).2.2.2⟩

/-- Code points of Lean characters are below 0x110000. -/
theorem charToNat_lt (c : Char) : c.toNat < 1114112 := by
  have h := c.valid
  simp only [UInt32.isValidChar, Nat.isValidChar] at h
  rcases h with h | ⟨_, h2⟩
  · exact Nat.lt_trans h (by omega)
  · exact h2

/-- UTF-8 bytes of a valid code point are bytes. -/
theorem utf8Bytes_lt (n : Nat) (hn : n < 1114112) :
    ∀ b ∈ utf8Bytes n, b < 256 := by
  intro b hb
  rw [utf8Bytes] at hb
  split_ifs at hb with h1 h2 h3 <;> simp at hb <;> omega

/-- Hex-digit round trip for values below 16. -/
theorem hexDigitChar_facts :
    ∀ n < 16, isHexChar (hexDigitChar n) = true ∧
      hexVal (hexDigitChar n) = n ∧ hexDigitChar n ≠ '&' ∧
      hexDigitChar n ≠ '=' ∧ hexDigitChar n ≠ '%' ∧ hexDigitChar n ≠ '+' := by
  decide

/-- Empty input decodes to nothing for any fuel. -/
theorem percentDecodeGo_nil (f : Nat) : percentDecodeGo f [] = [] := by
  cases f <;> rfl

/-- Step equation: a valid percent escape. -/
theorem percentDecodeGo_percent (fuel : Nat) (a b : Char) (rest : List Char)
    (h : isHexChar a = true ∧ isHexChar b = true) :
    percentDecodeGo (fuel + 1) ('%' :: a :: b :: rest) =
      (16 * hexVal a + hexVal b) :: percentDecodeGo fuel rest := by
  simp [percentDecodeGo, h]

/-- Step equation: a plus sign decodes to a space. -/
theorem percentDecodeGo_plus (fuel : Nat) (rest : List Char) :
    percentDecodeGo (fuel + 1) ('+' :: rest) = 32 :: percentDecodeGo fuel rest := by
  simp [percentDecodeGo]

/-- Step equation: an ordinary character contributes its UTF-8 bytes. -/
theorem percentDecodeGo_other (fuel : Nat) (c : Char) (rest : List Char)
    (h1 : c ≠ '%') (h2 : c ≠ '+') :
    percentDecodeGo (fuel + 1) (c :: rest) =
      utf8Bytes c.toNat ++ percentDecodeGo fuel rest := by
  simp [percentDecodeGo, h1, h2]

/-- Fuel irrelevance of the decoding step: any fuel at least the input
length yields the same output. -/
theorem percentDecodeGo_mono (f1 : Nat) : ∀ (f2 : Nat) (cs : List Char),
    cs.length ≤ f1 → cs.length ≤ f2 →
    percentDecodeGo f1 cs = percentDecodeGo f2 cs := by
  induction f1 with
  | zero =>
    intro f2 cs h1 _
    have : cs = [] := List.eq_nil_of_length_eq_zero (Nat.le_zero.mp h1)
    subst this
    cases f2 <;> rfl
  | succ f ih =>
    intro f2 cs h1 h2
    cases cs with
    | nil => cases f2 <;> rfl
    | cons c rest =>
      cases f2 with
      | zero => simp at h2
      | succ f2p =>
        simp only [percentDecodeGo]
        by_cases hc : c = '%'
        · simp only [if_pos hc]
          cases rest with
          | nil =>
            simp only
            rw [percentDecodeGo_nil, percentDecodeGo_nil]
          | cons a rest1 =>
            cases rest1 with
            | nil =>
              simp only [List.length_cons] at h1 h2
              simp only
              rw [ih f2p [a] (by simp; omega) (by simp; omega)]
            | cons b rest2 =>
              simp only [List.length_cons] at h1 h2
              by_cases hx : isHexChar a = true ∧ isHexChar b = true
              · simp only [if_pos hx]
                rw [ih f2p rest2 (by omega) (by omega)]
              · simp only [if_neg hx]
                rw [ih f2p (a :: b :: rest2) (by simp; omega) (by simp; omega)]
        · simp only [if_neg hc]
          simp only [List.length_cons] at h1 h2
          by_cases hp : c = '+'
          · simp only [if_pos hp]
            rw [ih f2p rest (by omega) (by omega)]
          · simp only [if_neg hp]
            rw [ih f2p rest (by omega) (by omega)]

/-- Decoding one percent-encoded byte. -/
theorem percentDecode_encodeByte (b : Nat) (hb : b < 256) (rest : List Char) :
    percentDecode (percentEncodeByte b ++ rest) = b :: percentDecode rest := by
  have hfd := hexDigitChar_facts (b / 16) (by omega)
  have hfm := hexDigitChar_facts (b % 16) (by omega)
  rw [percentDecode]
  simp only [percentEncodeByte, List.cons_append, List.length_cons]
  rw [percentDecodeGo_percent _ _ _ _ ⟨hfd.1, hfm.1⟩]
  rw [hfd.2.1, hfm.2.1]
  have hb2 : 16 * (b / 16) + b % 16 = b := by omega
  rw [hb2]
  simp only [List.nil_append]
  rw [percentDecodeGo_mono (rest.length + 2) rest.length rest (by omega) le_rfl]
  rfl

/-- Decoding a sequence of percent-encoded bytes. -/
theorem percentDecode_encodeBytes (bs : List Nat) (hb : ∀ b ∈ bs, b < 256)
    (rest : List Char) :
    percentDecode ((bs.map percentEncodeByte).join ++ rest) =
      bs ++ percentDecode rest := by
  induction bs with
  | nil => simp
  | cons b bt ih =>
    simp only [List.map_cons, List.join_cons, List.append_assoc]
    rw [percentDecode_encodeByte b (hb b (by simp)) _]
    rw [ih (fun x hx => hb x (by simp [hx]))]
    rfl

/-- Characters produced by the form encoder are never `&` or `=`. -/
theorem formEncodeChar_safe (c : Char) :
    ∀ x ∈ formEncodeChar c, x ≠ '&' ∧ x ≠ '=' := by
  intro x hx
  rw [formEncodeChar] at hx
  split_ifs at hx with h1 h2
  · simp at hx
    subst hx
    constructor
    · intro he; subst he; exact absurd h1 (by decide)
    · intro he; subst he; exact absurd h1 (by decide)
  · simp at hx
    subst hx
    exact ⟨by decide, by decide⟩
  · simp only [List.mem_join, List.mem_map] at hx
    obtain ⟨l, ⟨b, hb, hl⟩, hxl⟩ := hx
    subst hl
    have hblt : b < 256 := utf8Bytes_lt c.toNat (charToNat_lt c) b hb
    simp only [percentEncodeByte, List.mem_cons] at hxl
    rcases hxl with h | h | h
    · subst h; exact ⟨by decide, by decide⟩
    · subst h
      have := hexDigitChar_facts (b / 16) (by omega)
      exact ⟨this.2.2.1, this.2.2.2.1⟩
    · rcases h with h | h
      · subst h
        have := hexDigitChar_facts (b % 16) (by omega)
        exact ⟨this.2.2.1, this.2.2.2.1⟩
      · cases h

/-- Decoding of one form-encoded character recovers its UTF-8 bytes. -/
theorem percentDecode_formEncodeChar (c : Char) (rest : List Char) :
    percentDecode (formEncodeChar c ++ rest) =
      utf8Bytes c.toNat ++ percentDecode rest := by
  rw [formEncodeChar]
  split_ifs with h1 h2
  · have hperc : c ≠ '%' := by
      intro he; subst he; exact absurd h1 (by decide)
    have hplus : c ≠ '+' := by
      intro he; subst he; exact absurd h1 (by decide)
    rw [percentDecode]
    simp only [List.cons_append, List.nil_append, List.length_cons]
    rw [percentDecodeGo_other _ _ _ hperc hplus]
    rfl
  · subst h2
    rw [percentDecode]
    simp only [List.cons_append, List.nil_append, List.length_cons]
    rw [percentDecodeGo_plus]
    rfl
  · exact percentDecode_encodeBytes (utf8Bytes c.toNat)
      (utf8Bytes_lt c.toNat (charToNat_lt c)) rest

/-- List-level form encoding. -/
theorem percentDecode_formEncode (s : String) (rest : List Char) :
    percentDecode (formEncode s ++ rest) = utf8Str s ++ percentDecode rest := by
  rw [formEncode, utf8Str]
  induction s.toList with
  | nil => simp
  | cons c l ih =>
    simp only [List.map_cons, List.join_cons, List.append_assoc]
    rw [percentDecode_formEncodeChar c _, ih]

/-- The decoding step consumes no more than the following bytes. -/
theorem utf8DecodeOne_consumes (b : Nat) (rest : List Nat) :
    (utf8DecodeOne b rest).2.length ≤ rest.length := by
  rw [utf8DecodeOne]
  split_ifs <;> simp [List.length_drop]

/-- Fuel irrelevance of the UTF-8 decoding iteration. -/
theorem utf8DecodeGo_mono (f1 : Nat) : ∀ (f2 : Nat) (bs : List Nat),
    bs.length ≤ f1 → bs.length ≤ f2 →
    utf8DecodeGo f1 bs = utf8DecodeGo f2 bs := by
  induction f1 with
  | zero =>
    intro f2 bs h1 _
    have : bs = [] := List.eq_nil_of_length_eq_zero (Nat.le_zero.mp h1)
    subst this
    cases f2 <;> rfl
  | succ f ih =>
    intro f2 bs h1 h2
    cases bs with
    | nil => cases f2 <;> rfl
    | cons b rest =>
      cases f2 with
      | zero => simp at h2
      | succ f2p =>
        simp only [utf8DecodeGo]
        have hc := utf8DecodeOne_consumes b rest
        simp only [List.length_cons] at h1 h2
        rw [ih f2p (utf8DecodeOne b rest).2 (by omega) (by omega)]

/-- Step equation: an ASCII byte decodes to itself. -/
theorem utf8DecodeCps_one (b : Nat) (rest : List Nat) (h : b < 128) :
    utf8DecodeCps (b :: rest) = b :: utf8DecodeCps rest := by
  simp only [utf8DecodeCps, List.length_cons, utf8DecodeGo]
  rw [show utf8DecodeOne b rest = (b, rest) from by simp [utf8DecodeOne, h]]

/-- Step equation: a two-byte sequence. -/
theorem utf8DecodeCps_two (b0 b1 : Nat) (rest : List Nat)
    (h0 : 192 ≤ b0) (h1 : b0 < 224) :
    utf8DecodeCps (b0 :: b1 :: rest) =
      ((b0 - 192) * 64 + (b1 - 128)) :: utf8DecodeCps rest := by
  simp only [utf8DecodeCps, List.length_cons, utf8DecodeGo]
  rw [show utf8DecodeOne b0 (b1 :: rest) = ((b0 - 192) * 64 + (b1 - 128), rest) from by
    simp only [utf8DecodeOne]
    rw [if_neg (by omega), if_neg (by omega), if_pos (by omega), if_neg (by simp)]
    simp]
  rw [utf8DecodeGo_mono (rest.length + 1) rest.length rest (by omega) le_rfl]

/-- Step equation: a three-byte sequence. -/
theorem utf8DecodeCps_three (b0 b1 b2 : Nat) (rest : List Nat)
    (h0 : 224 ≤ b0) (h1 : b0 < 240) :
    utf8DecodeCps (b0 :: b1 :: b2 :: rest) =
      ((b0 - 224) * 4096 + (b1 - 128) * 64 + (b2 - 128)) :: utf8DecodeCps rest := by
  simp only [utf8DecodeCps, List.length_cons, utf8DecodeGo]
  rw [show utf8DecodeOne b0 (b1 :: b2 :: rest) =
      ((b0 - 224) * 4096 + (b1 - 128) * 64 + (b2 - 128), rest) from by
    simp only [utf8DecodeOne]
    rw [if_neg (by omega), if_neg (by omega), if_neg (by omega), if_pos (by omega),
      if_neg (by simp)]
    simp]
  rw [utf8DecodeGo_mono (rest.length + 2) rest.length rest (by omega) le_rfl]

/-- Step equation: a four-byte sequence. -/
theorem utf8DecodeCps_four (b0 b1 b2 b3 : Nat) (rest : List Nat)
    (h0 : 240 ≤ b0) :
    utf8DecodeCps (b0 :: b1 :: b2 :: b3 :: rest) =
      ((b0 - 240) * 262144 + (b1 - 128) * 4096 + (b2 - 128) * 64 + (b3 - 128))
        :: utf8DecodeCps rest := by
  simp only [utf8DecodeCps, List.length_cons, utf8DecodeGo]
  rw [show utf8DecodeOne b0 (b1 :: b2 :: b3 :: rest) =
      ((b0 - 240) * 262144 + (b1 - 128) * 4096 + (b2 - 128) * 64 + (b3 - 128),
        rest) from by
    simp only [utf8DecodeOne]
    rw [if_neg (by omega), if_neg (by omega), if_neg (by omega), if_neg (by omega),
      if_neg (by simp)]
    simp]
  rw [utf8DecodeGo_mono (rest.length + 3) rest.length rest (by omega) le_rfl]

set_option maxRecDepth 8000 in
/-- UTF-8 decoding inverts UTF-8 encoding of one character. -/
theorem utf8DecodeCps_encChar (c : Char) (rest : List Nat) :
    utf8DecodeCps (utf8Bytes c.toNat ++ rest) = c.toNat :: utf8DecodeCps rest := by
  have hn := charToNat_lt c
  rw [utf8Bytes]
  split_ifs with h1 h2 h3
  · simp only [List.cons_append, List.nil_append]
    rw [utf8DecodeCps_one c.toNat rest h1]
  · simp only [List.cons_append, List.nil_append]
    rw [utf8DecodeCps_two _ _ rest (by omega) (by omega)]
    congr 1
    omega
  · simp only [List.cons_append, List.nil_append]
    rw [utf8DecodeCps_three _ _ _ rest (by omega) (by omega)]
    congr 1
    omega
  · simp only [List.cons_append, List.nil_append]
    rw [utf8DecodeCps_four _ _ _ _ rest (by omega)]
    congr 1
    omega

/-- UTF-8 decoding inverts UTF-8 encoding of a string. -/
theorem utf8DecodeCps_utf8Str (s : String) (rest : List Nat) :
    utf8DecodeCps (utf8Str s ++ rest) =
      s.toList.map (fun c => c.toNat) ++ utf8DecodeCps rest := by
  rw [utf8Str]
  induction s.toList with
  | nil => simp
  | cons c l ih =>
    simp only [List.map_cons, List.join_cons, List.append_assoc]
    rw [utf8DecodeCps_encChar c _, ih]
    rfl

/-- Full decode-after-encode round trip. -/
theorem formDecodeChars_formEncode (s : String) :
    formDecodeChars (formEncode s) = s := by
  rw [formDecodeChars]
  have h1 : percentDecode (formEncode s) = utf8Str s := by
    have h0 := percentDecode_formEncode s []
    rw [List.append_nil] at h0
    rw [h0, show percentDecode [] = [] from rfl, List.append_nil]
  rw [h1]
  have h2 : utf8DecodeCps (utf8Str s) = s.toList.map (fun c => c.toNat) := by
    have h0 := utf8DecodeCps_utf8Str s []
    rw [List.append_nil] at h0
    rw [h0, show utf8DecodeCps [] = [] from rfl, List.append_nil]
  rw [h2]
  rw [List.map_map]
  have h3 : ∀ l : List Char, l.map (Char.ofNat ∘ fun c => c.toNat) = l := by
    intro l
    induction l with
    | nil => rfl
    | cons c t ih => simp [ih, Char.ofNat_toNat]
  rw [h3]
  cases s
  rfl

/-- Splitting a sequence without separators yields one segment. -/
theorem splitOnAmp_no_amp (xs : List Char) (h : '&' ∉ xs) :
    splitOnAmp xs = [xs] := by
  induction xs with
  | nil => rfl
  | cons c rest ih =>
    have hc : c ≠ '&' := fun he => h (he ▸ List.mem_cons_self c rest)
    have hr : '&' ∉ rest := fun hm => h (List.mem_cons_of_mem c hm)
    simp only [splitOnAmp, if_neg hc, ih hr]

/-- Splitting after an amp-free prefix peels that prefix off. -/
theorem splitOnAmp_append (xs ys : List Char) (h : '&' ∉ xs) :
    splitOnAmp (xs ++ '&' :: ys) = xs :: splitOnAmp ys := by
  induction xs with
  | nil => simp [splitOnAmp]
  | cons c rest ih =>
    have hc : c ≠ '&' := fun he => h (he ▸ List.mem_cons_self c rest)
    have hr : '&' ∉ rest := fun hm => h (List.mem_cons_of_mem c hm)
    simp only [List.cons_append, splitOnAmp, if_neg hc, List.append_eq, ih hr]

/-- Splitting a joined list of amp-free segments followed by more input. -/
theorem splitOnAmp_joinAmp_append (ps : List (List Char)) (ys : List Char)
    (h : ∀ p ∈ ps, '&' ∉ p) (hne : ps ≠ []) :
    splitOnAmp (joinAmp ps ++ '&' :: ys) = ps ++ splitOnAmp ys := by
  induction ps with
  | nil => exact absurd rfl hne
  | cons p rest ih =>
    cases rest with
    | nil =>
      simp only [joinAmp, List.cons_append, List.nil_append]
      rw [splitOnAmp_append p ys (h p (by simp))]
    | cons p2 rest2 =>
      rw [show joinAmp (p :: p2 :: rest2) = p ++ '&' :: joinAmp (p2 :: rest2) from rfl]
      rw [List.append_assoc, List.cons_append]
      rw [splitOnAmp_append p _ (h p (by simp))]
      rw [ih (fun q hq => h q (by simp [hq])) (by simp)]
      rfl

/-- Splitting an amp-free segment at its separator `=`. -/
theorem splitAtEq_append (xs ys : List Char) (h : '=' ∉ xs) :
    splitAtEq (xs ++ '=' :: ys) = (xs, some ys) := by
  induction xs with
  | nil => simp [splitAtEq]
  | cons c rest ih =>
    have hc : c ≠ '=' := fun he => h (he ▸ List.mem_cons_self c rest)
    have hr : '=' ∉ rest := fun hm => h (List.mem_cons_of_mem c hm)
    simp only [List.cons_append, splitAtEq, if_neg hc, List.append_eq, ih hr]

/-- No character of a form-encoded string is `&`. -/
theorem formEncode_no_amp (s : String) : '&' ∉ formEncode s := by
  intro hm
  rw [formEncode] at hm
  simp only [List.mem_join, List.mem_map] at hm
  obtain ⟨l, ⟨c, _, hcl⟩, hml⟩ := hm
  subst hcl
  exact (formEncodeChar_safe c '&' hml).1 rfl

/-- No character of a form-encoded string is `=`. -/
theorem formEncode_no_eq (s : String) : '=' ∉ formEncode s := by
  intro hm
  rw [formEncode] at hm
  simp only [List.mem_join, List.mem_map] at hm
  obtain ⟨l, ⟨c, _, hcl⟩, hml⟩ := hm
  subst hcl
  exact (formEncodeChar_safe c '=' hml).2 rfl

/-- The serialized pair parses back to the pair. -/
theorem parseSeg_serializePair (kv : String × String) :
    (if serializePair kv = [] then none
     else
       match splitAtEq (serializePair kv) with
       | (k, some v) => some (formDecodeChars k, formDecodeChars v)
       | (k, none) => some (formDecodeChars k, "")) = some kv := by
  have hne : serializePair kv ≠ [] := by
    rw [serializePair]
    cases hk : formEncode kv.1 <;> simp
  rw [if_neg hne]
  rw [show splitAtEq (serializePair kv) =
      (formEncode kv.1, some (formEncode kv.2)) from by
    rw [serializePair]
    exact splitAtEq_append _ _ (formEncode_no_eq kv.1)]
  simp [formDecodeChars_formEncode]

/-- No character of a serialized pair is `&`. -/
theorem serializePair_no_amp (kv : String × String) : '&' ∉ serializePair kv := by
  intro hm
  rw [serializePair] at hm
  rcases List.mem_append.mp hm with h | h
  · exact formEncode_no_amp kv.1 h
  · rcases List.mem_cons.mp h with h2 | h2
    · cases h2
    · exact formEncode_no_amp kv.2 h2

/-- Parsing the serialized pairs back. -/
theorem filterMap_parseSeg_serialize (l : List (String × String)) :
    (l.map serializePair).filterMap (fun seg =>
      if seg = [] then none
      else
        match splitAtEq seg with
        | (k, some v) => some (formDecodeChars k, formDecodeChars v)
        | (k, none) => some (formDecodeChars k, "")) = l := by
  induction l with
  | nil => rfl
  | cons kv rest ih =>
    simp only [List.map_cons, List.filterMap_cons]
    rw [show (if serializePair kv = [] then none
        else
          match splitAtEq (serializePair kv) with
          | (k, some v) => some (formDecodeChars k, formDecodeChars v)
          | (k, none) => some (formDecodeChars k, "")) = some kv from
      parseSeg_serializePair kv]
    rw [ih]

/-- Parsing the serialization of a non-empty parameter list with the
continuation pair appended recovers the parameters plus the pair. -/
theorem parseQuery_serialize_continue (l : List (String × String)) (hl : l ≠ []) :
    parseQuery (serializeQuery l ++ "&_continue=1") =
      l ++ [("_continue", "1")] := by
  have htl : (serializeQuery l ++ "&_continue=1").toList =
      joinAmp (l.map serializePair) ++ '&' :: "_continue=1".toList := by
    show (serializeQuery l ++ "&_continue=1").data =
      joinAmp (l.map serializePair) ++ '&' :: "_continue=1".data
    rw [String.data_append]
    rfl
  rw [parseQuery, htl]
  rw [parseQueryChars]
  rw [splitOnAmp_joinAmp_append (l.map serializePair) _
    (by
      intro p hp
      simp only [List.mem_map] at hp
      obtain ⟨kv, _, hkv⟩ := hp
      subst hkv
      exact serializePair_no_amp kv)
    (by
      intro hmap
      exact hl (List.map_eq_nil.mp hmap))]
  rw [List.filterMap_append]
  rw [filterMap_parseSeg_serialize]
  congr 1

/-- Looking up the continuation key after stripped parameters finds the
appended pair. -/
theorem lookup_continue_append (l : List (String × String))
    (h : ∀ kv ∈ l, kv.1 ≠ "_continue") :
    List.lookup "_continue" (l ++ [("_continue", "1")]) = some "1" := by
  induction l with
  | nil => rfl
  | cons kv rest ih =>
    have hk : ("_continue" == kv.1) = false := by
      simp [Ne.symm (h kv (by simp))]
    simp only [List.cons_append, List.lookup, hk]
    exact ih fun q hq => h q (by simp [hq])

/-- Claim C5: the resolver classifies a request as a bot exactly when the
bot classifier accepts the user-agent and the `_continue` value differs
from `"1"`; the preview's continue link is the `/r/<slug>` path with the
stripped query string plus `_continue=1`; and re-submitting the continue
link's query is classified as non-bot regardless of user-agent. -/
theorem isBotRequest_continue_roundtrip (userAgent : Option String)
    (query : List (String × String)) (slug : String) :
    (isBotRequest userAgent query = true ↔
        (isBot userAgent = true ∧ List.lookup "_continue" query ≠ some "1")) ∧
      continueUrlOf slug (strippedQueryString query) =
        "/r/" ++ slug ++ "?" ++ continueQueryOf (strippedQueryString query) ∧
      isBotRequest userAgent
        (parseQuery (continueQueryOf (strippedQueryString query))) = false := by
  refine ⟨?_, ?_, ?_⟩
  · simp [isBotRequest]
  · rw [continueUrlOf, redirectPathOf, continueQueryOf]
    by_cases hq : strippedQueryString query = ""
    · simp [hq]
    · rw [if_pos hq, if_pos hq, if_neg hq]
      simp only [String.append_assoc]
      rw [show ("&" ++ "_continue=1" : String) = "&_continue=1" from by decide]
  · have hlook : List.lookup "_continue"
        (parseQuery (continueQueryOf (strippedQueryString query))) = some "1" := by
      rw [continueQueryOf]
      by_cases hq : strippedQueryString query = ""
      · rw [if_pos hq]
        decide
      · rw [if_neg hq]
        have hstrip : query.filter (fun kv => kv.1 ≠ "_continue") ≠ [] := by
          intro he
          rw [strippedQueryString, he] at hq
          exact hq rfl
        rw [strippedQueryString]
        rw [parseQuery_serialize_continue _ hstrip]
        exact lookup_continue_append _ fun kv hkv => by
          have := List.of_mem_filter hkv
          simpa using this
    simp [isBotRequest, hlook]

/-- Witness for C5 at a concrete bot user-agent, query and slug. -/
theorem isBotRequest_continue_roundtrip_witness :
    (isBotRequest (some "Twitterbot/1.0") [("a", "1"), ("_continue", "1")] = true ↔
        (isBot (some "Twitterbot/1.0") = true ∧
          List.lookup "_continue" [("a", "1"), ("_continue", "1")] ≠ some "1")) ∧
      continueUrlOf "s" (strippedQueryString [("a", "1"), ("_continue", "1")]) =
        "/r/" ++ "s" ++ "?" ++
          continueQueryOf (strippedQueryString [("a", "1"), ("_continue", "1")]) ∧
      isBotRequest (some "Twitterbot/1.0")
        (parseQuery (continueQueryOf
          (strippedQueryString [("a", "1"), ("_continue", "1")]))) = false :=
  isBotRequest_continue_roundtrip (some "Twitterbot/1.0")
    [("a", "1"), ("_continue", "1")] "s"

/-- Character list of an appended string. -/
theorem stringToList_append (a b : String) :
    (a ++ b).toList = a.toList ++ b.toList :=
  String.data_append a b

/-- An infix of the right part is an infix of the whole. -/
theorem infix_append_left {l r : List Char} (x : List Char) (h : l <:+: r) :
    l <:+: x ++ r :=
  h.trans (List.suffix_append x r).isInfix

/-- An infix of the left part is an infix of the whole. -/
theorem infix_append_right {l x : List Char} (y : List Char) (h : l <:+: x) :
    l <:+: x ++ y :=
  h.trans (List.prefix_append x y).isInfix

/-- The escaped form of one character contains no raw special character. -/
theorem escapeHtmlChar_no_specials (c : Char) :
    ∀ x ∈ escapeHtmlChar c,
      x ≠ '<' ∧ x ≠ '>' ∧ x ≠ '"' ∧ x ≠ Char.ofNat 39 := by
  intro x hx
  rw [escapeHtmlChar] at hx
  split_ifs at hx with h1 h2 h3 h4 h5
  · fin_cases hx <;> exact ⟨by decide, by decide, by decide, by decide⟩
  · fin_cases hx <;> exact ⟨by decide, by decide, by decide, by decide⟩
  · fin_cases hx <;> exact ⟨by decide, by decide, by decide, by decide⟩
  · fin_cases hx <;> exact ⟨by decide, by decide, by decide, by decide⟩
  · fin_cases hx <;> exact ⟨by decide, by decide, by decide, by decide⟩
  · have hxc : x = c := by simpa using hx
    subst hxc
    exact ⟨h2, h3, h4, h5⟩

/-- Escaped output contains no raw `<`, `>`, `"` or apostrophe. -/
theorem escapeHtml_no_specials (s : String) :
    ∀ x ∈ (escapeHtml s).toList,
      x ≠ '<' ∧ x ≠ '>' ∧ x ≠ '"' ∧ x ≠ Char.ofNat 39 := by
  intro x hx
  rw [escapeHtml] at hx
  have hx2 : x ∈ (s.toList.map escapeHtmlChar).join := hx
  simp only [List.mem_join, List.mem_map] at hx2
  obtain ⟨l, ⟨c, _, hcl⟩, hxl⟩ := hx2
  subst hcl
  exact escapeHtmlChar_no_specials c x hxl

/-- The preview renderer is exactly the static template with every
interpolated text wrapped in `escapeHtml` (no interpolation reaches the
document unescaped). -/
theorem generatePreviewHtml_decomposition (options : PreviewOptions) :
    generatePreviewHtml options =
      previewSeg0 ++
        escapeHtml (jsOrDefault options.linkConfig.ogTitle "Continue to WhatsApp") ++
      previewSeg1 ++
        escapeHtml (jsOrDefault options.linkConfig.ogTitle "Continue to WhatsApp") ++
      previewSeg2 ++
        escapeHtml (jsOrDefault options.linkConfig.ogDescription
          "Click to continue to your destination") ++
      previewSeg3 ++
        escapeHtml (options.baseUrl ++ redirectPathOf options.slug options.queryString) ++
      previewSeg4 ++
        ogImageMetaProperty (jsOrDefault options.linkConfig.ogImage "") ++
      previewSeg5 ++
        escapeHtml (jsOrDefault options.linkConfig.ogTitle "Continue to WhatsApp") ++
      previewSeg6 ++
        escapeHtml (jsOrDefault options.linkConfig.ogDescription
          "Click to continue to your destination") ++
      previewSeg7 ++
        twitterImageMeta (jsOrDefault options.linkConfig.ogImage "") ++
      previewSeg8 ++
        escapeHtml (jsOrDefault options.linkConfig.ogTitle "Continue to WhatsApp") ++
      previewSeg9 ++
        escapeHtml (jsOrDefault options.linkConfig.ogDescription
          "Click to continue to your destination") ++
      previewSeg10 ++
        escapeHtml (continueUrlOf options.slug options.queryString) ++
      previewSeg11 ++
        escapeHtml (jsOrDefault options.linkConfig.ogTitle "Continue to WhatsApp") ++
      previewSeg12 ++
        escapeHtml (jsOrDefault options.linkConfig.ogDescription
          "Click to continue to your destination") ++
      previewSeg13 ++
        escapeHtml (continueUrlOf options.slug options.queryString) ++
      previewSeg14 := rfl

/-- The preview document for the script-title options, with the concrete
interpolated values spelled out. -/
theorem scriptDoc_eq :
    generatePreviewHtml scriptTitleOptions =
      previewSeg0 ++ escapeHtml "<script>x</script>" ++
      previewSeg1 ++ escapeHtml "<script>x</script>" ++
      previewSeg2 ++ escapeHtml "Click to continue to your destination" ++
      previewSeg3 ++ escapeHtml ("http://localhost" ++ redirectPathOf "s" "a=1") ++
      previewSeg4 ++ ogImageMetaProperty "" ++
      previewSeg5 ++ escapeHtml "<script>x</script>" ++
      previewSeg6 ++ escapeHtml "Click to continue to your destination" ++
      previewSeg7 ++ twitterImageMeta "" ++
      previewSeg8 ++ escapeHtml "<script>x</script>" ++
      previewSeg9 ++ escapeHtml "Click to continue to your destination" ++
      previewSeg10 ++ escapeHtml (continueUrlOf "s" "a=1") ++
      previewSeg11 ++ escapeHtml "<script>x</script>" ++
      previewSeg12 ++ escapeHtml "Click to continue to your destination" ++
      previewSeg13 ++ escapeHtml (continueUrlOf "s" "a=1") ++
      previewSeg14 := rfl

/-- An infix of the left string is an infix of the appended string. -/
theorem strInfix_extendR {n : List Char} {x : String} (y : String)
    (h : n <:+: x.toList) : n <:+: (x ++ y).toList := by
  rw [stringToList_append]; exact infix_append_right _ h

/-- An infix of the right string is an infix of the appended string. -/
theorem strInfix_extendL {n : List Char} {y : String} (x : String)
    (h : n <:+: y.toList) : n <:+: (x ++ y).toList := by
  rw [stringToList_append]; exact infix_append_left _ h

set_option maxRecDepth 2000 in
/-- The rendered document carries the escaped script title. -/
theorem scriptDoc_contains_escaped :
    containsStr (generatePreviewHtml scriptTitleOptions) "&lt;script&gt;" = true := by
  rw [containsStr, containsSub_iff]
  rw [scriptDoc_eq]
  apply strInfix_extendR
  apply strInfix_extendR
  apply strInfix_extendR
  apply strInfix_extendR
  apply strInfix_extendR
  apply strInfix_extendR
  apply strInfix_extendR
  apply strInfix_extendR
  apply strInfix_extendR
  apply strInfix_extendR
  apply strInfix_extendR
  apply strInfix_extendR
  apply strInfix_extendR
  apply strInfix_extendR
  apply strInfix_extendR
  apply strInfix_extendR
  apply strInfix_extendR
  apply strInfix_extendR
  apply strInfix_extendR
  apply strInfix_extendR
  apply strInfix_extendR
  apply strInfix_extendR
  apply strInfix_extendR
  apply strInfix_extendR
  apply strInfix_extendR
  apply strInfix_extendR
  apply strInfix_extendR
  apply strInfix_extendL
  rw [show escapeHtml "<script>x</script>" = "&lt;script&gt;x&lt;/script&gt;" from by decide]
  rw [← containsSub_iff]
  decide

/-- Claim C2 (amended): every interpolated text of the preview document is
embedded through `escapeHtml`, whose output contains no raw `<`, `>`, `"`
or apostrophe characters; rendering a LinkEntry with
`ogTitle = "<script>x</script>"` embeds the escaped title
`&lt;script&gt;x&lt;/script&gt;` and the document contains
`&lt;script&gt;` (the only literal `<script>` is the template's own static
script block, see the counterexample). -/
theorem generatePreviewHtml_escapes (options : PreviewOptions) (s : String) :
    (generatePreviewHtml options =
      previewSeg0 ++
        escapeHtml (jsOrDefault options.linkConfig.ogTitle "Continue to WhatsApp") ++
      previewSeg1 ++
        escapeHtml (jsOrDefault options.linkConfig.ogTitle "Continue to WhatsApp") ++
      previewSeg2 ++
        escapeHtml (jsOrDefault options.linkConfig.ogDescription
          "Click to continue to your destination") ++
      previewSeg3 ++
        escapeHtml (options.baseUrl ++ redirectPathOf options.slug options.queryString) ++
      previewSeg4 ++
        ogImageMetaProperty (jsOrDefault options.linkConfig.ogImage "") ++
      previewSeg5 ++
        escapeHtml (jsOrDefault options.linkConfig.ogTitle "Continue to WhatsApp") ++
      previewSeg6 ++
        escapeHtml (jsOrDefault options.linkConfig.ogDescription
          "Click to continue to your destination") ++
      previewSeg7 ++
        twitterImageMeta (jsOrDefault options.linkConfig.ogImage "") ++
      previewSeg8 ++
        escapeHtml (jsOrDefault options.linkConfig.ogTitle "Continue to WhatsApp") ++
      previewSeg9 ++
        escapeHtml (jsOrDefault options.linkConfig.ogDescription
          "Click to continue to your destination") ++
      previewSeg10 ++
        escapeHtml (continueUrlOf options.slug options.queryString) ++
      previewSeg11 ++
        escapeHtml (jsOrDefault options.linkConfig.ogTitle "Continue to WhatsApp") ++
      previewSeg12 ++
        escapeHtml (jsOrDefault options.linkConfig.ogDescription
          "Click to continue to your destination") ++
      previewSeg13 ++
        escapeHtml (continueUrlOf options.slug options.queryString) ++
      previewSeg14) ∧
      (∀ x ∈ (escapeHtml s).toList,
        x ≠ '<' ∧ x ≠ '>' ∧ x ≠ '"' ∧ x ≠ Char.ofNat 39) ∧
      escapeHtml "<script>x</script>" = "&lt;script&gt;x&lt;/script&gt;" ∧
      containsStr (generatePreviewHtml scriptTitleOptions) "&lt;script&gt;" = true :=
  ⟨generatePreviewHtml_decomposition options, escapeHtml_no_specials s,
    by decide, scriptDoc_contains_escaped⟩

/-- Witness for C2's amended theorem at a concrete character of the escaped
output. -/
theorem generatePreviewHtml_escapes_witness :
    '&' ≠ '<' ∧ '&' ≠ '>' ∧ '&' ≠ '"' ∧ '&' ≠ Char.ofNat 39 :=
  (generatePreviewHtml_escapes scriptTitleOptions "<script>x</script>").2.1 '&'
    (by decide)

set_option maxRecDepth 2000 in
/-- Counterexample for C2 as frozen: the rendered document does contain the
literal `<script>` tag (the template's own static script block), so the
claim's clause that the document never contains a literal `<script>` tag is
false on the code. -/
theorem scriptDoc_contains_script_tag :
    containsStr (generatePreviewHtml scriptTitleOptions) "<script>" = true := by
  rw [containsStr, containsSub_iff]
  rw [scriptDoc_eq]
  apply strInfix_extendL
  unfold previewSeg14
  apply strInfix_extendR
  apply strInfix_extendR
  apply strInfix_extendR
  apply strInfix_extendR
  apply strInfix_extendR
  apply strInfix_extendR
  apply strInfix_extendR
  apply strInfix_extendR
  apply strInfix_extendR
  apply strInfix_extendR
  apply strInfix_extendR
  apply strInfix_extendR
  apply strInfix_extendR
  apply strInfix_extendR
  apply strInfix_extendR
  apply strInfix_extendR
  apply strInfix_extendL
  rw [← containsSub_iff]
  decide

/-- One compression round yields an 8-word state. -/
theorem sha256Round_length (s : List Nat) (kw : Nat × Nat) :
    (sha256Round s kw).length = 8 := rfl

/-- Folding rounds preserves the 8-word state length. -/
theorem foldl_sha256Round_length (l : List (Nat × Nat)) :
    ∀ s : List Nat, s.length = 8 → (l.foldl sha256Round s).length = 8 := by
  induction l with
  | nil => intro s hs; simpa using hs
  | cons kw rest ih =>
    intro s _
    simp only [List.foldl_cons]
    exact ih (sha256Round s kw) (sha256Round_length s kw)

/-- Block compression preserves the 8-word state length. -/
theorem sha256Block_length (h block : List Nat) (hh : h.length = 8) :
    (sha256Block h block).length = 8 := by
  rw [sha256Block]
  simp only [List.length_map, List.length_zip, hh]
  rw [foldl_sha256Round_length _ h hh]
  omega

/-- The block iteration preserves the 8-word state length. -/
theorem sha256Blocks_length (fuel : Nat) : ∀ (h bs : List Nat),
    h.length = 8 → (sha256Blocks fuel h bs).length = 8 := by
  induction fuel with
  | zero =>
    intro h bs hh
    cases bs <;> simpa [sha256Blocks] using hh
  | succ f ih =>
    intro h bs hh
    cases bs with
    | nil => simpa [sha256Blocks] using hh
    | cons b rest =>
      rw [sha256Blocks]
      exact ih _ _ (sha256Block_length h _ hh)

/-- Length of the rendered word bytes. -/
theorem length_join_bytesBE4 (l : List Nat) :
    ((l.map bytesBE4).join).length = 4 * l.length := by
  induction l with
  | nil => rfl
  | cons x rest ih =>
    simp only [List.map_cons, List.join_cons, List.length_append, ih,
      List.length_cons]
    rw [show (bytesBE4 x).length = 4 from rfl]
    omega

/-- The digest always holds 32 bytes. -/
theorem sha256Bytes_length (msg : List Nat) : (sha256Bytes msg).length = 32 := by
  rw [sha256Bytes]
  rw [length_join_bytesBE4]
  rw [sha256Blocks_length _ _ _ (by rfl)]

/-- Bytes of a rendered word are below 256. -/
theorem mem_bytesBE4_lt (n : Nat) : ∀ b ∈ bytesBE4 n, b < 256 := by
  intro b hb
  rw [bytesBE4] at hb
  simp only [List.mem_cons, List.not_mem_nil, or_false] at hb
  rcases hb with h | h | h | h <;> subst h <;> omega

/-- Hex rendering length. -/
theorem toHexChars_length (bytes : List Nat) :
    (toHexChars bytes).length = 2 * bytes.length := by
  induction bytes with
  | nil => rfl
  | cons b rest ih =>
    simp only [toHexChars, List.map_cons, List.join_cons, List.length_append,
      List.length_cons]
    have ih2 : ((rest.map fun b =>
        [hexLowerChar (b / 16), hexLowerChar (b % 16)]).flatten).length =
        2 * rest.length := by
      simpa [toHexChars] using ih
    simp only [List.length_cons, List.length_nil]
    omega

/-- Hex rendering of bytes yields lower-case hex characters. -/
theorem toHexChars_hex (bytes : List Nat) (hb : ∀ b ∈ bytes, b < 256) :
    ∀ x ∈ toHexChars bytes, isLowerHexChar x = true := by
  intro x hx
  rw [toHexChars] at hx
  simp only [List.mem_join, List.mem_map] at hx
  obtain ⟨l, ⟨b, hbm, hbl⟩, hxl⟩ := hx
  subst hbl
  have hblt : b < 256 := hb b hbm
  have hlem : ∀ n < 16, isLowerHexChar (hexLowerChar n) = true := by decide
  simp only [List.mem_cons, List.not_mem_nil, or_false] at hxl
  rcases hxl with h | h <;> subst h
  · exact hlem (b / 16) (by omega)
  · exact hlem (b % 16) (by omega)

/-- Every character of a digest rendered by `hashIP` is lower-case hex. -/
theorem hashIP_chars_hex (ip salt : String) (hip : ip ≠ "") :
    ∀ x ∈ (hashIP (some ip) salt).toList, isLowerHexChar x = true := by
  intro x hx
  rw [hashIP, if_neg hip] at hx
  have hx2 : x ∈ (toHexChars (sha256Bytes (utf8Str (salt ++ ":" ++ ip)))).take 16 := hx
  have hx3 := List.mem_of_mem_take hx2
  apply toHexChars_hex _ _ x hx3
  intro b hbm
  rw [sha256Bytes] at hbm
  simp only [List.mem_join, List.mem_map] at hbm
  obtain ⟨l, ⟨w, _, hwl⟩, hbl⟩ := hbm
  subst hwl
  exact mem_bytesBE4_lt w b hbl

set_option maxRecDepth 20000 in
/-- Claim C9: IP hashing is deterministic (a pure function of IP and salt);
an absent or empty IP yields the fixed sentinel `unknown`; a present IP
yields 16 lower-case hex characters, so the raw IP string (which contains a
non-hex character such as `.` or `:` for every textual IPv4/IPv6 address)
never appears in the hash output; and the hashes of two concrete distinct
IPs differ. -/
theorem hashIP_spec (ip salt : String) (c : Char) (hip : ip ≠ "")
    (hc : c ∈ ip.toList) (hhex : isLowerHexChar c = false) :
    hashIP (some ip) salt = hashIP (some ip) salt ∧
      hashIP none salt = "unknown" ∧
      hashIP (some "") salt = "unknown" ∧
      (hashIP (some ip) salt).length = 16 ∧
      (∀ x ∈ (hashIP (some ip) salt).toList, isLowerHexChar x = true) ∧
      ¬ ip.toList <:+: (hashIP (some ip) salt).toList ∧
      hashIP (some "192.168.1.1") defaultSalt ≠
        hashIP (some "192.168.1.2") defaultSalt := by
  refine ⟨rfl, rfl, rfl, ?_, hashIP_chars_hex ip salt hip, ?_, by decide⟩
  · rw [hashIP, if_neg hip]
    show ((toHexChars (sha256Bytes (utf8Str (salt ++ ":" ++ ip)))).take 16).length = 16
    rw [List.length_take, toHexChars_length, sha256Bytes_length]
    omega
  · intro hinf
    have hmem : c ∈ (hashIP (some ip) salt).toList := hinf.subset hc
    have := hashIP_chars_hex ip salt hip c hmem
    rw [this] at hhex
    cases hhex

set_option maxRecDepth 20000 in
/-- Witness for C9 at a concrete dotted IPv4 address. -/
theorem hashIP_spec_witness :
    (hashIP (some "127.0.0.1") defaultSalt).length = 16 ∧
      ¬ ("127.0.0.1" : String).toList <:+:
        (hashIP (some "127.0.0.1") defaultSalt).toList ∧
      hashIP (some "192.168.1.1") defaultSalt ≠
        hashIP (some "192.168.1.2") defaultSalt :=
  ⟨(hashIP_spec "127.0.0.1" defaultSalt '.' (by decide) (by decide) (by decide)).2.2.2.1,
    (hashIP_spec "127.0.0.1" defaultSalt '.' (by decide) (by decide) (by decide)).2.2.2.2.2.1,
    (hashIP_spec "127.0.0.1" defaultSalt '.' (by decide) (by decide) (by decide)).2.2.2.2.2.2⟩

end BranchRedirect
